import Mathlib

/-!
BackEnd1: products and carts service (`src/index.js`).

A shallow embedding of the eight route handlers of `index.js` and the two JSON
files they read and rewrite, followed by theorems about them.

Modelling conventions.

* A handler is a function from the two files (`Store`) to the HTTP response it
  sends and the files it leaves behind. `Date.now()` and the request parts
  (`req.params`, `req.query.limit`, `req.body`) are arguments.
* A product record is an untyped JSON object (`Obj`): `PUT /:pid` spreads an
  arbitrary request body over the stored record, so no fixed field set exists.
  A cart is only ever built by the two cart handlers from the literals
  `{ id, products: [] }` and `{ product, quantity: 1 }`, so carts are typed.
* `req.body` is the object that `express.json()` parsed, so its numbers are
  IEEE 754 doubles: the text `1e400` arrives as `Infinity`, `1e-400` as `0` and
  `9007199254740993` as `9007199254740992`. `JSON.parse` never yields `NaN`,
  and the handlers do no arithmetic on the numbers of a product.
* A file is represented by the array last handed to `writeFile`: its text is
  `JSON.stringify` of that array, and `readFile` returns `JSON.parse` of that
  text. `res.json(v)` likewise sends the text `JSON.stringify(v)`, and the body
  of a response is the value that the client parses from it. The round trip
  (`jsonVal`) turns an infinite number into `null` and `-0` into `0` and
  changes nothing else.
* A cart quantity is a natural number that a double holds; `quantity += 1` is
  the double addition (`jsIncrement`), which is exact below `2^53` only.
* `console.log` calls are dropped.
-/

namespace BackEnd1

/-! ## JSON values and objects -/

/-- A number as `JSON.parse` yields it: a finite double, given by its sign bit, its biased
exponent (below 2047) and its 52-bit fraction, or an infinity, which is what a literal
beyond the range of the doubles parses to. Both zeros have exponent 0 and fraction 0. -/
inductive JNum where
  | finite (negative : Bool) (exponent : Fin 2047) (fraction : Fin 4503599627370496)
  | infinite (negative : Bool)
deriving DecidableEq

/-- A JSON value, as produced by `JSON.parse`. -/
inductive JVal where
  | null
  | bool (b : Bool)
  | num (n : JNum)
  | str (s : String)
  | arr (items : List JVal)
  | obj (members : List (String × JVal))

/-- A JavaScript object holding JSON values: its own properties in insertion order.
Integer-like names, which JavaScript enumerates first, get no special treatment; only the
order of the properties in the serialised text depends on that. -/
abbrev Obj := List (String × JVal)

/-- Property read `o[k]`; `none` stands for `undefined` (no such property). -/
def getProp (o : Obj) (k : String) : Option JVal :=
  match o with
  | [] => none
  | (k', v) :: rest => if k' = k then some v else getProp rest k

/-- Property write `o[k] = v`: overwrite in place if `k` is present, else add `k` last. -/
def setProp (o : Obj) (k : String) (v : JVal) : Obj :=
  match o with
  | [] => [(k, v)]
  | (k', v') :: rest => if k' = k then (k', v) :: rest else (k', v') :: setProp rest k v

/-- The statement `delete o[k]`. -/
def deleteProp (o : Obj) (k : String) : Obj :=
  o.filter (fun kv => kv.1 != k)

/-- The object literal `{ ...a, ...b }`: the properties of `a`, then those of `b`, are
defined one by one on a fresh object. -/
def spread (a b : Obj) : Obj :=
  (a ++ b).foldl (fun acc kv => setProp acc kv.1 kv.2) []

/-- The property names of an object are pairwise distinct (true of every `JSON.parse` result). -/
def WF (o : Obj) : Prop :=
  (o.map Prod.fst).Nodup

/-- The own properties that `...v` contributes to an object literal; `undefined` has none. -/
def spreadable (v : Option Obj) : Obj :=
  match v with
  | none => []
  | some o => o

/-- An object literal `{ k1: v1, ... }` with distinct names, as it is serialised: a property
whose value is `undefined` is left out of the JSON text. -/
def literal (props : List (String × Option JVal)) : Obj :=
  props.filterMap (fun kv => kv.2.map (fun v => (kv.1, v)))

/-- The number that `JSON.parse` reads back from the text `JSON.stringify` writes for a
number; `none` when that text is `null`. Infinities are written as `null`, both zeros as
`0`, and every other double as a decimal that parses back to it. -/
def JNum.json : JNum → Option JNum
  | .finite negative exponent fraction =>
    if exponent = 0 ∧ fraction = 0 then some (.finite false 0 0)
    else some (.finite negative exponent fraction)
  | .infinite _ => none

/-- The rational number that a finite double stands for: `fraction / 2^1074` when the biased
exponent is 0 (zero and the subnormal numbers), else
`(2^52 + fraction) * 2^(exponent - 1075)`, with the sign. -/
def JNum.toRat : JNum → Option ℚ
  | .finite negative exponent fraction =>
    let magnitude : ℚ :=
      if exponent.val = 0 then (fraction.val : ℚ) / 2 ^ 1074
      else (4503599627370496 + fraction.val : ℚ) * 2 ^ exponent.val / 2 ^ 1075
    some (if negative then -magnitude else magnitude)
  | .infinite _ => none

mutual
/-- The value `JSON.parse(JSON.stringify(v))`. -/
def jsonVal : JVal → JVal
  | .null => .null
  | .bool b => .bool b
  | .num n =>
    match n.json with
    | some m => .num m
    | none => .null
  | .str s => .str s
  | .arr items => .arr (jsonList items)
  | .obj members => .obj (jsonMembers members)
/-- The round trip `jsonVal` on the elements of an array. -/
def jsonList : List JVal → List JVal
  | [] => []
  | v :: vs => jsonVal v :: jsonList vs
/-- The round trip `jsonVal` on the properties of an object. -/
def jsonMembers : List (String × JVal) → List (String × JVal)
  | [] => []
  | (k, v) :: ms => (k, jsonVal v) :: jsonMembers ms
end

/-- The object `JSON.parse(JSON.stringify(o))`. -/
def jsonObj (o : Obj) : Obj :=
  jsonMembers o

/-- JavaScript truthiness `!!v` of a JSON value; a number is falsy when it is `0` or `-0`. -/
def truthy : JVal → Bool
  | .null => false
  | .bool b => b
  | .num (.finite _ exponent fraction) => !(exponent == 0 && fraction == 0)
  | .num (.infinite _) => true
  | .str s => s != ""
  | .arr _ => true
  | .obj _ => true

/-- Truthiness of a possibly `undefined` value. -/
def truthyOpt : Option JVal → Bool
  | none => false
  | some v => truthy v

/-- The expression `v || d`. -/
def jsOr (v : Option JVal) (d : JVal) : JVal :=
  match v with
  | some x => if truthy x then x else d
  | none => d

/-! ## Array helpers -/

/-- The index returned by `Array.prototype.findIndex`; `none` stands for `-1`. -/
def findIndex {α : Type} (p : α → Bool) : List α → Option Nat
  | [] => none
  | x :: xs => if p x then some 0 else (findIndex p xs).map (· + 1)

/-- In-place mutation, through the reference that `Array.prototype.find` returned, of the
first element satisfying `p`. -/
def modifyFirst {α : Type} (p : α → Bool) (f : α → α) : List α → List α
  | [] => []
  | x :: xs => if p x then f x :: xs else x :: modifyFirst p f xs

/-- The call `xs.slice(start, stop)` with integer arguments. -/
def slice {α : Type} (xs : List α) (start stop : Int) : List α :=
  let len : Int := xs.length
  let k : Int := if start < 0 then max (len + start) 0 else min start len
  let final : Int := if stop < 0 then max (len + stop) 0 else min stop len
  (xs.drop k.toNat).take (final - k).toNat

/-! ## `parseInt` -/

/-- White space and line terminators skipped by `parseInt`. -/
def isWhiteSpace (c : Char) : Bool :=
  [0x9, 0xA, 0xB, 0xC, 0xD, 0x20, 0xA0, 0x1680, 0x2000, 0x2001, 0x2002, 0x2003, 0x2004,
   0x2005, 0x2006, 0x2007, 0x2008, 0x2009, 0x200A, 0x2028, 0x2029, 0x202F, 0x205F, 0x3000,
   0xFEFF].contains c.toNat

/-- The value of a character as a digit of radix up to 36. -/
def digitVal (c : Char) : Option Nat :=
  if 48 ≤ c.toNat ∧ c.toNat ≤ 57 then some (c.toNat - 48)
  else if 97 ≤ c.toNat ∧ c.toNat ≤ 122 then some (c.toNat - 97 + 10)
  else if 65 ≤ c.toNat ∧ c.toNat ≤ 90 then some (c.toNat - 65 + 10)
  else none

/-- The digits of the longest prefix made of radix-`R` digits. -/
def takeDigits (R : Nat) : List Char → List Nat
  | [] => []
  | c :: cs =>
    match digitVal c with
    | some d => if d < R then d :: takeDigits R cs else []
    | none => []

/-- The call `parseInt(s)` (no radix argument); `none` stands for `NaN`. The result is the
exact integer; it is only used as the `stop` argument of `slice`. -/
def parseInt (s : String) : Option Int :=
  let S := s.data.dropWhile isWhiteSpace
  let signed : Int × List Char :=
    match S with
    | '-' :: r => (-1, r)
    | '+' :: r => (1, r)
    | _ => (1, S)
  let radixed : Nat × List Char :=
    match signed.2 with
    | '0' :: 'x' :: r => (16, r)
    | '0' :: 'X' :: r => (16, r)
    | _ => (10, signed.2)
  let Z := takeDigits radixed.1 radixed.2
  if Z.isEmpty then none
  else some (signed.1 * (Z.foldl (fun acc d => acc * radixed.1 + d) 0 : Nat))

/-- The call `parseInt(req.query.limit)`: an absent parameter is `undefined`, which
`parseInt` first turns into the string `"undefined"`. A repeated or nested query parameter
(an array or an object) is not modelled. -/
def parseLimit (limit : Option String) : Option Int :=
  match limit with
  | none => parseInt "undefined"
  | some s => parseInt s

/-! ## Stored data -/

/-- One entry of a cart's `products` array. The handlers build a quantity as 1 and change it
by `+= 1` only, so it is a natural number that a double holds. -/
structure CartLine where
  product : String
  quantity : Nat
deriving DecidableEq, Repr

/-- A cart record of `carrito.json`. -/
structure Cart where
  id : String
  products : List CartLine
deriving DecidableEq, Repr

/-- The two files; `none` is a file that does not exist. -/
structure Store where
  productsFile : Option (List Obj)
  cartsFile : Option (List Cart)

/-- The cart `JSON.parse(JSON.stringify(c))`: ids and product references are strings and
quantities are doubles holding integers, all of which are written and parsed back as they
are. -/
def jsonCart (c : Cart) : Cart :=
  c

/-- The utility `readFile`: a missing file reads as the empty array, and otherwise the text
of the file is parsed; `parse` is the round trip `JSON.parse(JSON.stringify(x))` on a
record. -/
def readFile {α : Type} (parse : α → α) (file : Option (List α)) : List α :=
  match file with
  | none => []
  | some data => data.map parse

/-- The utility `writeFile`: the file now holds the text `JSON.stringify(data)`. -/
def writeFile {α : Type} (data : List α) : Option (List α) :=
  some data

/-- The state before anything was written: neither file exists. -/
def Store.empty : Store :=
  ⟨none, none⟩

/-- The product collection as the handlers read it. -/
def Store.products (s : Store) : List Obj :=
  readFile jsonObj s.productsFile

/-- The cart collection as the handlers read it. -/
def Store.carts (s : Store) : List Cart :=
  readFile jsonCart s.cartsFile

/-! ## Responses -/

/-- The body of a response, as the client parses it. -/
inductive Body where
  | error (msg : String)
  | product (p : Obj)
  | products (ps : List Obj)
  | cart (c : Cart)
  | empty

/-- An HTTP response: status code and body. -/
structure Response where
  status : Nat
  body : Body

/-! ## Product routes -/

/-- The test `p.id === pid` for a string `pid`. -/
def hasId (pid : String) (p : Obj) : Bool :=
  match getProp p "id" with
  | some (.str s) => s == pid
  | _ => false

/-- The handler `productsRouter.get('/')`. -/
def listProducts (limit : Option String) (s : Store) : Response × Store :=
  let products := readFile jsonObj s.productsFile
  match parseLimit limit with
  | some n =>
    if n ≠ 0 then (⟨200, .products ((slice products 0 n).map jsonObj)⟩, s)
    else (⟨200, .products (products.map jsonObj)⟩, s)
  | none => (⟨200, .products (products.map jsonObj)⟩, s)

/-- The handler `productsRouter.get('/:pid')`. -/
def getProduct (pid : String) (s : Store) : Response × Store :=
  let products := readFile jsonObj s.productsFile
  match products.find? (hasId pid) with
  | none => (⟨404, .error "Product not found"⟩, s)
  | some product => (⟨200, .product (jsonObj product)⟩, s)

/-- The object literal `newProduct` of `productsRouter.post('/')`, built when `Date.now()` is
`now`. -/
def newProduct (now : Nat) (body : Obj) : Obj :=
  literal [("id", some (.str (toString now))), ("title", getProp body "title"),
    ("description", getProp body "description"), ("code", getProp body "code"),
    ("price", getProp body "price"), ("status", some (.bool true)),
    ("stock", getProp body "stock"), ("category", getProp body "category"),
    ("thumbnails", some (jsOr (getProp body "thumbnails") (.arr [])))]

/-- The handler `productsRouter.post('/')`, run when `Date.now()` is `now`. -/
def createProduct (now : Nat) (body : Obj) (s : Store) : Response × Store :=
  let title := getProp body "title"
  let description := getProp body "description"
  let code := getProp body "code"
  let price := getProp body "price"
  let stock := getProp body "stock"
  let category := getProp body "category"
  if !truthyOpt title || !truthyOpt description || !truthyOpt code || !truthyOpt price
      || !truthyOpt stock || !truthyOpt category then
    (⟨400, .error "All fields except thumbnails are required"⟩, s)
  else
    let products := readFile jsonObj s.productsFile
    let products := products ++ [newProduct now body]
    (⟨201, .product (jsonObj (newProduct now body))⟩,
      { s with productsFile := writeFile products })

/-- The handler `productsRouter.put('/:pid')`. -/
def updateProduct (pid : String) (body : Obj) (s : Store) : Response × Store :=
  let products := readFile jsonObj s.productsFile
  match findIndex (hasId pid) products with
  | none => (⟨404, .error "Product not found"⟩, s)
  | some productIndex =>
    let updates := deleteProp body "id"
    let merged := spread (spreadable products[productIndex]?) updates
    let products := products.set productIndex merged
    (⟨200, .product (jsonObj merged)⟩, { s with productsFile := writeFile products })

/-- The handler `productsRouter.delete('/:pid')`. -/
def deleteProduct (pid : String) (s : Store) : Response × Store :=
  let products := readFile jsonObj s.productsFile
  let newProducts := products.filter (fun p => !hasId pid p)
  if products.length = newProducts.length then (⟨404, .error "Product not found"⟩, s)
  else (⟨204, .empty⟩, { s with productsFile := writeFile newProducts })

/-! ## Cart routes -/

/-- The handler `cartsRouter.post('/')`, run when `Date.now()` is `now`. -/
def createCart (now : Nat) (s : Store) : Response × Store :=
  let carts := readFile jsonCart s.cartsFile
  let newCart : Cart := { id := toString now, products := [] }
  let carts := carts ++ [newCart]
  (⟨201, .cart (jsonCart newCart)⟩, { s with cartsFile := writeFile carts })

/-- The handler `cartsRouter.get('/:cid')`. -/
def getCart (cid : String) (s : Store) : Response × Store :=
  let carts := readFile jsonCart s.cartsFile
  match carts.find? (fun c => c.id == cid) with
  | none => (⟨404, .error "Cart not found"⟩, s)
  | some cart => (⟨200, .cart (jsonCart cart)⟩, s)

/-- The double `q + 1` for a natural number `q` that a double holds. Below `2^53` the sum is
exact. From `2^53` on the doubles are the even numbers (up to `2^54`, then the multiples of
4, and so on), so `q + 1` is not a double and is rounded to the nearest one, ties to the
even significand: back to `q`, except that a `q` between `2^53` and `2^54` whose half is
odd rounds up to `q + 2`. -/
def jsIncrement (q : Nat) : Nat :=
  if q < 9007199254740992 then q + 1
  else if q < 18014398509481984 ∧ (q / 2) % 2 = 1 then q + 2
  else q

/-- The lines of a cart after `pid` was added to it: the first line for `pid` gets
`quantity += 1`, or a line with quantity 1 is pushed. -/
def addLine (pid : String) (lines : List CartLine) : List CartLine :=
  match lines.find? (fun l => l.product == pid) with
  | some _ =>
    modifyFirst (fun l => l.product == pid)
      (fun l => { l with quantity := jsIncrement l.quantity }) lines
  | none => lines ++ [{ product := pid, quantity := 1 }]

/-- The handler `cartsRouter.post('/:cid/product/:pid')`. -/
def attachProduct (cid pid : String) (s : Store) : Response × Store :=
  let carts := readFile jsonCart s.cartsFile
  let products := readFile jsonObj s.productsFile
  match carts.find? (fun c => c.id == cid) with
  | none => (⟨404, .error "Cart not found"⟩, s)
  | some cart =>
    match products.find? (hasId pid) with
    | none => (⟨404, .error "Product not found"⟩, s)
    | some _ =>
      let cart' : Cart := { cart with products := addLine pid cart.products }
      let carts := modifyFirst (fun c => c.id == cid) (fun _ => cart') carts
      (⟨200, .cart (jsonCart cart')⟩, { s with cartsFile := writeFile carts })

/-! ## Requests and runs -/

/-- A request to one of the eight routes, with the clock value where the handler reads it. -/
inductive Op where
  | listProducts (limit : Option String)
  | getProduct (pid : String)
  | createProduct (now : Nat) (body : Obj)
  | updateProduct (pid : String) (body : Obj)
  | deleteProduct (pid : String)
  | createCart (now : Nat)
  | getCart (cid : String)
  | attachProduct (cid pid : String)

/-- Dispatch of a request to its handler. -/
def handle (op : Op) (s : Store) : Response × Store :=
  match op with
  | .listProducts limit => listProducts limit s
  | .getProduct pid => getProduct pid s
  | .createProduct now body => createProduct now body s
  | .updateProduct pid body => updateProduct pid body s
  | .deleteProduct pid => deleteProduct pid s
  | .createCart now => createCart now s
  | .getCart cid => getCart cid s
  | .attachProduct cid pid => attachProduct cid pid s

/-- The files after serving the requests `ops` one after the other. -/
def run (ops : List Op) (s : Store) : Store :=
  ops.foldl (fun st op => (handle op st).2) s

/-- A state reachable from the state where neither file exists. -/
def Reachable (s : Store) : Prop :=
  ∃ ops : List Op, s = run ops Store.empty

/-- The request `POST /:cid/product/:pid` served `n` times in a row. -/
def attachN (cid pid : String) (n : Nat) (s : Store) : Store :=
  match n with
  | 0 => s
  | n + 1 => (attachProduct cid pid (attachN cid pid n s)).2

/-- The `product` values of a cart's lines are pairwise distinct. -/
def LinesDistinct (c : Cart) : Prop :=
  (c.products.map CartLine.product).Nodup

/-- The `id` values of the product collection are pairwise distinct. -/
def ProductIdsDistinct (s : Store) : Prop :=
  (s.products.map (fun p => getProp p "id")).Nodup

/-- The `id` values of the cart collection are pairwise distinct. -/
def CartIdsDistinct (s : Store) : Prop :=
  (s.carts.map Cart.id).Nodup

/-- The id that a create request would assign at its clock value is not yet in use in its
collection; no condition on the other requests. -/
def FreshClock (op : Op) (s : Store) : Prop :=
  match op with
  | .createProduct now _ => ∀ p ∈ s.products, getProp p "id" ≠ some (.str (toString now))
  | .createCart now => ∀ c ∈ s.carts, c.id ≠ toString now
  | _ => True

/-- Every create request of the run `ops`, started in `s`, meets `FreshClock` in the state
in which it is served. -/
def FreshRun (ops : List Op) (s : Store) : Prop :=
  match ops with
  | [] => True
  | op :: rest => FreshClock op s ∧ FreshRun rest (handle op s).2

/-- The names tested by the guard of `productsRouter.post('/')`, in the order of the test. -/
def requiredFields : List String :=
  ["title", "description", "code", "price", "stock", "category"]

/-- The character sequence `hay` begins with the sequence `needle`. -/
def startsWith : List Char → List Char → Bool
  | _, [] => true
  | [], _ :: _ => false
  | h :: hs, n :: ns => h == n && startsWith hs ns

/-- The character sequence `needle` occurs somewhere in the sequence `hay`. -/
def occursIn (needle : List Char) : List Char → Bool
  | [] => needle.isEmpty
  | h :: hs => startsWith (h :: hs) needle || occursIn needle hs

/-- The text `msg` contains the name `name`. -/
def mentions (msg name : String) : Bool :=
  occursIn name.data msg.data

/-- The double 0.5. -/
def half : JVal :=
  .num (.finite false 1022 0)

/-- The double 1.5. -/
def oneAndHalf : JVal :=
  .num (.finite false 1023 2251799813685248)

/-- The double 20. -/
def twenty : JVal :=
  .num (.finite false 1027 1125899906842624)

/-- The double 50. -/
def fifty : JVal :=
  .num (.finite false 1028 2533274790395904)

/-- The double 100. -/
def hundred : JVal :=
  .num (.finite false 1029 2533274790395904)

/-- The rational number that a JSON value stands for when it is a finite number. -/
def JVal.toRat : JVal → Option ℚ
  | .num n => n.toRat
  | _ => none

/-- The value `Infinity`, which `express.json()` yields for the text `1e400`. -/
def infinity : JVal :=
  .num (.infinite false)

/-- A pen, the product of the end-to-end scenario. -/
def penBody : Obj :=
  [("title", .str "Pen"), ("description", .str "Blue pen"), ("code", .str "PN1"),
   ("price", oneAndHalf), ("stock", hundred), ("category", .str "office")]

/-- A sample state: one product `"2"` and one cart `"1"` that holds a line for it. -/
def sampleStore : Store :=
  { productsFile := some [[("id", .str "2"), ("title", .str "Pen")]],
    cartsFile := some [{ id := "1", products := [{ product := "2", quantity := 4 }] }] }

/-- A pencil. -/
def pencilBody : Obj :=
  [("title", .str "Pencil"), ("description", .str "HB pencil"), ("code", .str "PC1"),
   ("price", half), ("stock", twenty), ("category", .str "office")]

/-- The state after the pencil was created from the empty files at clock value
1700000000000. -/
def pencilStore : Store :=
  (createProduct 1700000000000 pencilBody Store.empty).2

/-- A state with one product and three carts, the first of which holds a line. -/
def threeCarts : Store :=
  { productsFile := some [[("id", .str "2")]],
    cartsFile := some [{ id := "a", products := [{ product := "2", quantity := 1 }] },
      { id := "b", products := [] }, { id := "c", products := [] }] }

/-- The requests that create the pencil and the pen, and then two carts, all at clock value
1700000000000. -/
def twinOps : List Op :=
  [.createProduct 1700000000000 pencilBody, .createProduct 1700000000000 penBody,
   .createCart 1700000000000, .createCart 1700000000000]

/-- The state after `twinOps`, run from the empty files: two products and two carts, all
with id `"1700000000000"`. -/
def twinStore : Store :=
  run twinOps Store.empty

/-- A state in which the line of cart `"1"` for product `"2"` has reached quantity `2^53`. -/
def fullStore : Store :=
  { productsFile := some [[("id", .str "2"), ("title", .str "Pen")]],
    cartsFile :=
      some [{ id := "1", products := [{ product := "2", quantity := 9007199254740992 }] }] }

/-- A state with product `"2"` and a cart `"5"` that holds a line for another product. -/
def clashStore : Store :=
  { productsFile := some [[("id", .str "2")]],
    cartsFile := some [{ id := "5", products := [{ product := "9", quantity := 1 }] }] }

/-- A state with product `"2"` and the empty cart `"7"`. -/
def emptyCartStore : Store :=
  { productsFile := some [[("id", .str "2")]],
    cartsFile := some [{ id := "7", products := [] }] }

/-- A state with five products and no cart. -/
def fiveProducts : Store :=
  { productsFile := some [[("id", .str "1")], [("id", .str "2")], [("id", .str "3")],
      [("id", .str "4")], [("id", .str "5")]],
    cartsFile := none }

/-! ## The JSON round trip -/

theorem jsonMembers_eq_map (o : List (String × JVal)) :
    jsonMembers o = o.map (fun kv => (kv.1, jsonVal kv.2)) := by
  induction o with
  | nil => rfl
  | cons a t ih =>
    obtain ⟨k, v⟩ := a
    simp [jsonMembers, ih]

theorem jsonList_eq_map (l : List JVal) : jsonList l = l.map jsonVal := by
  induction l with
  | nil => rfl
  | cons a t ih => simp [jsonList, ih]

mutual
theorem jsonVal_idem : ∀ v : JVal, jsonVal (jsonVal v) = jsonVal v
  | .null => rfl
  | .bool _ => rfl
  | .num n => by
    cases n with
    | finite negative exponent fraction =>
      by_cases h : exponent = 0 ∧ fraction = 0 <;> simp [jsonVal, JNum.json, h]
    | infinite negative => simp [jsonVal, JNum.json]
  | .str _ => rfl
  | .arr items => by simp [jsonVal, jsonList_idem items]
  | .obj members => by simp [jsonVal, jsonMembers_idem members]
theorem jsonList_idem : ∀ l : List JVal, jsonList (jsonList l) = jsonList l
  | [] => rfl
  | v :: vs => by simp [jsonList, jsonVal_idem v, jsonList_idem vs]
theorem jsonMembers_idem :
    ∀ l : List (String × JVal), jsonMembers (jsonMembers l) = jsonMembers l
  | [] => rfl
  | (k, v) :: ms => by simp [jsonMembers, jsonVal_idem v, jsonMembers_idem ms]
end

theorem jsonObj_idem (o : Obj) : jsonObj (jsonObj o) = jsonObj o :=
  jsonMembers_idem o

theorem getProp_jsonObj (o : Obj) (k : String) :
    getProp (jsonObj o) k = (getProp o k).map jsonVal := by
  induction o with
  | nil => rfl
  | cons a t ih =>
    obtain ⟨ka, va⟩ := a
    unfold jsonObj at ih ⊢
    by_cases h : ka = k <;> simp [jsonMembers, getProp, h, ih]

theorem keys_jsonObj (o : Obj) : (jsonObj o).map Prod.fst = o.map Prod.fst := by
  unfold jsonObj
  rw [jsonMembers_eq_map]
  simp

theorem jsonObj_append (a b : Obj) : jsonObj (a ++ b) = jsonObj a ++ jsonObj b := by
  unfold jsonObj
  simp [jsonMembers_eq_map]

theorem jsonVal_eq_str (v : JVal) (t : String) : jsonVal v = .str t ↔ v = .str t := by
  cases v with
  | null => simp [jsonVal]
  | bool b => simp [jsonVal]
  | num n =>
    cases n with
    | finite negative exponent fraction =>
      by_cases h : exponent = 0 ∧ fraction = 0 <;> simp [jsonVal, JNum.json, h]
    | infinite negative => simp [jsonVal, JNum.json]
  | str u => simp [jsonVal]
  | arr items => simp [jsonVal]
  | obj members => simp [jsonVal]

theorem getProp_jsonObj_str (o : Obj) (k t : String) :
    getProp (jsonObj o) k = some (.str t) ↔ getProp o k = some (.str t) := by
  rw [getProp_jsonObj]
  cases getProp o k with
  | none => simp
  | some v => simp [jsonVal_eq_str]

theorem hasId_iff (pid : String) (p : Obj) :
    hasId pid p = true ↔ getProp p "id" = some (.str pid) := by
  unfold hasId
  split
  · next s hs => simp [hs]
  · next hne =>
    constructor
    · intro h; simp at h
    · intro h; exact absurd h (by intro h'; exact hne pid h')

theorem hasId_jsonObj (pid : String) (p : Obj) : hasId pid (jsonObj p) = hasId pid p := by
  rw [Bool.eq_iff_iff, hasId_iff, hasId_iff, getProp_jsonObj_str]

theorem map_jsonCart (l : List Cart) : l.map jsonCart = l := by
  induction l with
  | nil => rfl
  | cons a t ih => simp [jsonCart, ih]

theorem carts_none (s : Store) (h : s.cartsFile = none) : s.carts = [] := by
  simp [Store.carts, readFile, h]

theorem carts_write (data : List Cart) (file : Option (List Obj)) :
    Store.carts { productsFile := file, cartsFile := writeFile data } = data := by
  simp [Store.carts, readFile, writeFile, map_jsonCart]

theorem products_write (data : List Obj) (file : Option (List Cart)) :
    Store.products { productsFile := writeFile data, cartsFile := file } =
      data.map jsonObj := by
  simp [Store.products, readFile, writeFile]

theorem jsonObj_of_mem_products (s : Store) (p : Obj) (h : p ∈ s.products) :
    jsonObj p = p := by
  unfold Store.products readFile at h
  split at h
  · simp at h
  · obtain ⟨q, _, hq⟩ := List.mem_map.mp h
    rw [← hq, jsonObj_idem]

theorem map_jsonObj_of_stable (l : List Obj) (h : ∀ p ∈ l, jsonObj p = p) :
    l.map jsonObj = l := by
  induction l with
  | nil => rfl
  | cons a t ih =>
    simp [h a (List.mem_cons_self _ _), ih (fun p hp => h p (List.mem_cons_of_mem _ hp))]

theorem map_jsonObj_sublist (s : Store) (l : List Obj) (h : l.Sublist s.products) :
    l.map jsonObj = l :=
  map_jsonObj_of_stable l (fun p hp => jsonObj_of_mem_products s p (h.subset hp))

theorem map_jsonObj_products (s : Store) : s.products.map jsonObj = s.products :=
  map_jsonObj_sublist s s.products (List.Sublist.refl _)

set_option exponentiation.threshold 2000 in
/-- The doubles used in the examples stand for the numbers after which they are named. -/
theorem sample_numbers :
    half.toRat = some (1 / 2) ∧ oneAndHalf.toRat = some (3 / 2) ∧ twenty.toRat = some 20 ∧
    fifty.toRat = some 50 ∧ hundred.toRat = some 100 ∧ infinity.toRat = none := by
  have e1 : ((1022 : Fin 2047) : Nat) = 1022 := rfl
  have e2 : ((1023 : Fin 2047) : Nat) = 1023 := rfl
  have e3 : ((1027 : Fin 2047) : Nat) = 1027 := rfl
  have e4 : ((1028 : Fin 2047) : Nat) = 1028 := rfl
  have e5 : ((1029 : Fin 2047) : Nat) = 1029 := rfl
  have f1 : ((0 : Fin 4503599627370496) : Nat) = 0 := rfl
  have f2 : ((2251799813685248 : Fin 4503599627370496) : Nat) = 2251799813685248 := rfl
  have f3 : ((1125899906842624 : Fin 4503599627370496) : Nat) = 1125899906842624 := rfl
  have f4 : ((2533274790395904 : Fin 4503599627370496) : Nat) = 2533274790395904 := rfl
  refine ⟨?_, ?_, ?_, ?_, ?_, rfl⟩
  · simp only [half, JVal.toRat, JNum.toRat, e1, f1]
    norm_num
  · simp only [oneAndHalf, JVal.toRat, JNum.toRat, e2, f2]
    norm_num
  · simp only [twenty, JVal.toRat, JNum.toRat, e3, f3]
    norm_num
  · simp only [fifty, JVal.toRat, JNum.toRat, e4, f4]
    norm_num
  · simp only [hundred, JVal.toRat, JNum.toRat, e5, f4]
    norm_num

/-! ## Lemmas on the array helpers -/

theorem find?_modifyFirst {α : Type} (p : α → Bool) (f : α → α) (l : List α) (x : α)
    (h : l.find? p = some x) (hf : p (f x) = true) :
    (modifyFirst p f l).find? p = some (f x) := by
  induction l with
  | nil => simp at h
  | cons a t ih =>
    by_cases ha : p a = true
    · simp [List.find?, ha] at h
      subst h
      simp [modifyFirst, ha, List.find?, hf]
    · simp [List.find?, ha] at h
      simp [modifyFirst, ha, List.find?, ih h]

theorem modifyFirst_eq_set {α : Type} (p : α → Bool) (f : α → α) (l : List α) (x : α)
    (h : l.find? p = some x) :
    ∃ i, l[i]? = some x ∧ (∀ j, j < i → ∀ y, l[j]? = some y → p y = false) ∧
      modifyFirst p f l = l.set i (f x) := by
  induction l with
  | nil => simp at h
  | cons a t ih =>
    by_cases ha : p a = true
    · simp [List.find?, ha] at h
      subst h
      exact ⟨0, by simp, by intro j hj; omega, by simp [modifyFirst, ha]⟩
    · simp [List.find?, ha] at h
      obtain ⟨i, h1, h2, h3⟩ := ih h
      refine ⟨i + 1, by simpa using h1, ?_, by simp [modifyFirst, ha, h3]⟩
      intro j hj y hy
      cases j with
      | zero => simp at hy; subst hy; simpa using ha
      | succ j => exact h2 j (by omega) y (by simpa using hy)

theorem map_modifyFirst {α β : Type} (p : α → Bool) (f : α → α) (g : α → β)
    (hg : ∀ x, g (f x) = g x) (l : List α) :
    (modifyFirst p f l).map g = l.map g := by
  induction l with
  | nil => rfl
  | cons a t ih =>
    by_cases ha : p a = true
    · simp [modifyFirst, ha, hg]
    · simp [modifyFirst, ha, ih]

theorem mem_modifyFirst {α : Type} (p : α → Bool) (f : α → α) (l : List α) (y : α)
    (h : y ∈ modifyFirst p f l) : y ∈ l ∨ ∃ x, l.find? p = some x ∧ y = f x := by
  induction l with
  | nil => simp [modifyFirst] at h
  | cons a t ih =>
    by_cases ha : p a = true
    · simp [modifyFirst, ha] at h
      rcases h with h | h
      · exact Or.inr ⟨a, by simp [List.find?, ha], h⟩
      · exact Or.inl (List.mem_cons_of_mem _ h)
    · simp [modifyFirst, ha] at h
      rcases h with h | h
      · exact Or.inl (by simp [h])
      · rcases ih h with h' | ⟨x, hx, hy⟩
        · exact Or.inl (List.mem_cons_of_mem _ h')
        · exact Or.inr ⟨x, by simp [List.find?, ha, hx], hy⟩

theorem find?_cart_isSome (cid : String) (carts : List Cart)
    (h : ∃ c ∈ carts, c.id = cid) : ∃ cart, carts.find? (fun c => c.id == cid) = some cart := by
  cases hf : carts.find? (fun c => c.id == cid) with
  | some cart => exact ⟨cart, rfl⟩
  | none =>
    obtain ⟨c, hc, hid⟩ := h
    have := List.find?_eq_none.mp hf c hc
    simp [hid] at this

theorem find?_product_isSome (pid : String) (products : List Obj)
    (h : ∃ p ∈ products, getProp p "id" = some (.str pid)) :
    ∃ prod, products.find? (hasId pid) = some prod := by
  cases hf : products.find? (hasId pid) with
  | some prod => exact ⟨prod, rfl⟩
  | none =>
    obtain ⟨p, hp, hid⟩ := h
    have := List.find?_eq_none.mp hf p hp
    simp [(hasId_iff pid p).mpr hid] at this

theorem find?_product_none (pid : String) (products : List Obj)
    (h : ¬ ∃ p ∈ products, getProp p "id" = some (.str pid)) :
    products.find? (hasId pid) = none := by
  apply List.find?_eq_none.mpr
  intro p hp hh
  exact h ⟨p, hp, (hasId_iff pid p).mp hh⟩

theorem find?_cart_none (cid : String) (carts : List Cart)
    (h : ¬ ∃ c ∈ carts, c.id = cid) : carts.find? (fun c => c.id == cid) = none := by
  apply List.find?_eq_none.mpr
  intro c hc hh
  exact h ⟨c, hc, by simpa using hh⟩

/-! ## Lemmas on `addLine` and `attachProduct` -/

theorem addLine_absent (pid : String) (lines : List CartLine)
    (h : ∀ l ∈ lines, l.product ≠ pid) :
    addLine pid lines = lines ++ [{ product := pid, quantity := 1 }] := by
  have : lines.find? (fun l => l.product == pid) = none := by
    apply List.find?_eq_none.mpr
    intro l hl hh
    exact h l hl (by simpa using hh)
  simp [addLine, this]

theorem jsIncrement_exact (q : Nat) (h : q < 9007199254740992) : jsIncrement q = q + 1 := by
  simp [jsIncrement, h]

theorem le_jsIncrement (q : Nat) : q ≤ jsIncrement q := by
  unfold jsIncrement
  split
  · omega
  · split <;> omega

theorem addLine_present (pid : String) (lines : List CartLine)
    (h : ∃ l ∈ lines, l.product = pid) :
    ∃ i l, lines[i]? = some l ∧ l.product = pid ∧
      (∀ j, j < i → ∀ l', lines[j]? = some l' → l'.product ≠ pid) ∧
      addLine pid lines = lines.set i { l with quantity := jsIncrement l.quantity } := by
  cases hf : lines.find? (fun l => l.product == pid) with
  | none =>
    obtain ⟨l, hl, hp⟩ := h
    have := List.find?_eq_none.mp hf l hl
    simp [hp] at this
  | some l =>
    obtain ⟨i, h1, h2, h3⟩ := modifyFirst_eq_set (fun l => l.product == pid)
      (fun l => { l with quantity := jsIncrement l.quantity }) lines l hf
    refine ⟨i, l, h1, by simpa using List.find?_some hf, ?_, ?_⟩
    · intro j hj l' hl'
      simpa using h2 j hj l' hl'
    · simp [addLine, hf, h3]

theorem addLine_nodup (pid : String) (lines : List CartLine)
    (h : (lines.map CartLine.product).Nodup) :
    ((addLine pid lines).map CartLine.product).Nodup := by
  unfold addLine
  split
  · rw [map_modifyFirst]
    · exact h
    · intro x; rfl
  · next hf =>
    have hnone := List.find?_eq_none.mp hf
    rw [List.map_append, List.nodup_append]
    refine ⟨h, by simp, ?_⟩
    intro a ha hb
    simp at hb
    subst hb
    obtain ⟨l, hl, hp⟩ := List.mem_map.mp ha
    have := hnone l hl
    simp [hp] at this

theorem attachProduct_ok (cid pid : String) (s : Store) (cart : Cart) (prod : Obj)
    (hc : s.carts.find? (fun c => c.id == cid) = some cart)
    (hp : s.products.find? (hasId pid) = some prod) :
    attachProduct cid pid s =
      (⟨200, .cart { cart with products := addLine pid cart.products }⟩,
       { s with cartsFile := writeFile (modifyFirst (fun c => c.id == cid)
          (fun _ => { cart with products := addLine pid cart.products }) s.carts) }) := by
  unfold Store.carts at hc
  unfold Store.products at hp
  simp [attachProduct, hc, hp, Store.carts, jsonCart]

theorem getCart_of_find (cid : String) (s : Store) (cart : Cart)
    (h : s.carts.find? (fun c => c.id == cid) = some cart) :
    (getCart cid s).1 = ⟨200, .cart cart⟩ := by
  unfold Store.carts at h
  simp [getCart, h, jsonCart]

theorem attachProduct_find (cid pid : String) (s : Store) (cart : Cart) (prod : Obj)
    (hc : s.carts.find? (fun c => c.id == cid) = some cart)
    (hp : s.products.find? (hasId pid) = some prod) :
    (attachProduct cid pid s).2.carts.find? (fun c => c.id == cid) =
      some { cart with products := addLine pid cart.products } := by
  have hid : cart.id = cid := by simpa using List.find?_some hc
  rw [attachProduct_ok cid pid s cart prod hc hp, carts_write]
  exact find?_modifyFirst (fun c : Cart => c.id == cid)
    (fun _ => { cart with products := addLine pid cart.products }) s.carts cart hc
    (by simp [hid])

/-! ## Attaching a product to a cart -/

/-- C1 fails as stated: in `fullStore` the line of cart `"1"` for product `"2"` has quantity
`2^53`; attaching the product again answers with the same quantity, not with one more,
because the double `2^53 + 1` rounds back to `2^53`. -/
theorem attachProduct_spec_counterexample :
    fullStore.carts =
      [{ id := "1", products := [{ product := "2", quantity := 9007199254740992 }] }] ∧
    (∃ p ∈ fullStore.products, getProp p "id" = some (.str "2")) ∧
    (attachProduct "1" "2" fullStore).1 =
      ⟨200, .cart { id := "1",
                    products := [{ product := "2", quantity := 9007199254740992 }] }⟩ ∧
    (attachProduct "1" "2" fullStore).2.carts = fullStore.carts ∧
    (9007199254740992 : Nat) ≠ 9007199254740992 + 1 :=
  ⟨rfl, ⟨_, List.mem_cons_self _ _, rfl⟩, rfl, rfl, by decide⟩

/-- C1, amended: when a cart with id `cid` and a product with id `pid` exist, `attachProduct`
answers 200 with the target cart (the first cart with id `cid`), whose id is unchanged and
whose lines are: if a line for `pid` was there, the same sequence with the first such line's
quantity replaced by the double `quantity + 1`, which is the quantity increased by exactly
1 whenever the quantity is below `2^53`, and every other line unchanged in place; otherwise
the old sequence with the line `{ product: pid, quantity: 1 }` appended. The returned cart
is the cart that `getCart cid` reads from the files left behind. -/
theorem attachProduct_spec (cid pid : String) (s : Store)
    (hc : ∃ c ∈ s.carts, c.id = cid)
    (hp : ∃ p ∈ s.products, getProp p "id" = some (.str pid)) :
    ∃ cart cart' : Cart,
      s.carts.find? (fun c => c.id == cid) = some cart ∧
      (attachProduct cid pid s).1 = ⟨200, .cart cart'⟩ ∧
      cart'.id = cart.id ∧
      ((∃ l ∈ cart.products, l.product = pid) →
        ∃ i l, cart.products[i]? = some l ∧ l.product = pid ∧
          (∀ j, j < i → ∀ l', cart.products[j]? = some l' → l'.product ≠ pid) ∧
          cart'.products =
            cart.products.set i { product := pid, quantity := jsIncrement l.quantity } ∧
          (l.quantity < 9007199254740992 →
            cart'.products =
              cart.products.set i { product := pid, quantity := l.quantity + 1 })) ∧
      ((∀ l ∈ cart.products, l.product ≠ pid) →
        cart'.products = cart.products ++ [{ product := pid, quantity := 1 }]) ∧
      (getCart cid (attachProduct cid pid s).2).1 = ⟨200, .cart cart'⟩ := by
  obtain ⟨cart, hcart⟩ := find?_cart_isSome cid s.carts hc
  obtain ⟨prod, hprod⟩ := find?_product_isSome pid s.products hp
  refine ⟨cart, { cart with products := addLine pid cart.products }, hcart, ?_, rfl, ?_, ?_, ?_⟩
  · rw [attachProduct_ok cid pid s cart prod hcart hprod]
  · intro hl
    obtain ⟨i, l, h1, h2, h3, h4⟩ := addLine_present pid cart.products hl
    have h5 : addLine pid cart.products =
        cart.products.set i { product := pid, quantity := jsIncrement l.quantity } := by
      rw [h4, ← h2]
    refine ⟨i, l, h1, h2, h3, h5, ?_⟩
    intro hq
    show addLine pid cart.products = _
    rw [h5, jsIncrement_exact l.quantity hq]
  · intro hl
    exact addLine_absent pid cart.products hl
  · exact getCart_of_find cid _ _ (attachProduct_find cid pid s cart prod hcart hprod)

/-- C1 amended, at a concrete input: cart `"1"` of `sampleStore` and product `"2"`. -/
theorem attachProduct_spec_witness :
    (∃ c ∈ sampleStore.carts, c.id = "1") ∧
    (∃ p ∈ sampleStore.products, getProp p "id" = some (.str "2")) ∧
    (attachProduct "1" "2" sampleStore).1 =
      ⟨200, .cart { id := "1", products := [{ product := "2", quantity := 5 }] }⟩ ∧
    ∃ cart cart' : Cart,
      sampleStore.carts.find? (fun c => c.id == "1") = some cart ∧
      (attachProduct "1" "2" sampleStore).1 = ⟨200, .cart cart'⟩ ∧
      cart'.id = cart.id ∧
      ((∃ l ∈ cart.products, l.product = "2") →
        ∃ i l, cart.products[i]? = some l ∧ l.product = "2" ∧
          (∀ j, j < i → ∀ l', cart.products[j]? = some l' → l'.product ≠ "2") ∧
          cart'.products =
            cart.products.set i { product := "2", quantity := jsIncrement l.quantity } ∧
          (l.quantity < 9007199254740992 →
            cart'.products =
              cart.products.set i { product := "2", quantity := l.quantity + 1 })) ∧
      ((∀ l ∈ cart.products, l.product ≠ "2") →
        cart'.products = cart.products ++ [{ product := "2", quantity := 1 }]) ∧
      (getCart "1" (attachProduct "1" "2" sampleStore).2).1 = ⟨200, .cart cart'⟩ :=
  ⟨⟨_, List.mem_cons_self _ _, rfl⟩, ⟨_, List.mem_cons_self _ _, rfl⟩, rfl,
    attachProduct_spec "1" "2" sampleStore ⟨_, List.mem_cons_self _ _, rfl⟩
      ⟨_, List.mem_cons_self _ _, rfl⟩⟩

/-! ## One line per product -/

theorem createCart_carts (now : Nat) (s : Store) :
    (createCart now s).2.carts = s.carts ++ [{ id := toString now, products := [] }] := by
  simp only [createCart]
  rw [carts_write]
  rfl

theorem handle_lines_distinct (op : Op) (s : Store)
    (h : ∀ c ∈ s.carts, LinesDistinct c) : ∀ c ∈ (handle op s).2.carts, LinesDistinct c := by
  cases op with
  | listProducts limit =>
    simp only [handle, listProducts]
    split
    · split <;> exact h
    · exact h
  | getProduct pid =>
    simp only [handle, getProduct]
    split <;> exact h
  | createProduct now body =>
    simp only [handle, createProduct]
    split <;> exact h
  | updateProduct pid body =>
    simp only [handle, updateProduct]
    split <;> exact h
  | deleteProduct pid =>
    simp only [handle, deleteProduct]
    split <;> exact h
  | createCart now =>
    simp only [handle]
    intro c hc
    rw [createCart_carts] at hc
    rcases List.mem_append.mp hc with hc | hc
    · exact h c hc
    · simp at hc
      subst hc
      simp [LinesDistinct]
  | getCart cid =>
    simp only [handle, getCart]
    split <;> exact h
  | attachProduct cid pid =>
    simp only [handle]
    cases hcart : s.carts.find? (fun c => c.id == cid) with
    | none =>
      have hnone := hcart
      unfold Store.carts at hnone
      simp only [attachProduct, hnone]
      exact h
    | some cart =>
      cases hprod : s.products.find? (hasId pid) with
      | none =>
        have hc' := hcart
        have hp' := hprod
        unfold Store.carts at hc'
        unfold Store.products at hp'
        simp only [attachProduct, hc', hp']
        exact h
      | some prod =>
        rw [attachProduct_ok cid pid s cart prod hcart hprod, carts_write]
        intro c hc
        rcases mem_modifyFirst _ _ _ _ hc with hc | ⟨x, _, hx⟩
        · exact h c hc
        · subst hx
          exact addLine_nodup pid cart.products (h cart (List.mem_of_find?_eq_some hcart))

theorem run_lines_distinct (ops : List Op) (s : Store)
    (h : ∀ c ∈ s.carts, LinesDistinct c) : ∀ c ∈ (run ops s).carts, LinesDistinct c := by
  induction ops generalizing s with
  | nil => exact h
  | cons op rest ih =>
    simp only [run, List.foldl_cons]
    exact ih _ (handle_lines_distinct op s h)

/-- C2: in every state reachable from the empty files by any sequence of requests, no cart
has two lines with the same `product`; and every handler, in particular cart creation and
`attachProduct`, preserves this from any state. -/
theorem cart_lines_distinct :
    (∀ s, Reachable s → ∀ c ∈ s.carts, LinesDistinct c) ∧
    (∀ op s, (∀ c ∈ s.carts, LinesDistinct c) →
      ∀ c ∈ (handle op s).2.carts, LinesDistinct c) := by
  constructor
  · rintro s ⟨ops, rfl⟩
    exact run_lines_distinct ops Store.empty (by simp [Store.empty, Store.carts, readFile])
  · exact handle_lines_distinct

/-- C2, at a concrete run: a product and a cart are created and the product is attached
three times. -/
theorem cart_lines_distinct_witness :
    Reachable (run [.createProduct 5 penBody, .createCart 7, .attachProduct "7" "5",
      .attachProduct "7" "5", .attachProduct "7" "5"] Store.empty) ∧
    { id := "7", products := [{ product := "5", quantity := 3 }] } ∈
      (run [.createProduct 5 penBody, .createCart 7, .attachProduct "7" "5",
        .attachProduct "7" "5", .attachProduct "7" "5"] Store.empty).carts ∧
    LinesDistinct { id := "7", products := [{ product := "5", quantity := 3 }] } :=
  ⟨⟨_, rfl⟩, by decide,
    cart_lines_distinct.1 _ ⟨[.createProduct 5 penBody, .createCart 7, .attachProduct "7" "5",
      .attachProduct "7" "5", .attachProduct "7" "5"], rfl⟩ _ (by decide)⟩

/-! ## Repeated attachment -/

theorem addLine_append_self (pid : String) (q : Nat) (lines : List CartLine)
    (h : ∀ l ∈ lines, l.product ≠ pid) :
    addLine pid (lines ++ [{ product := pid, quantity := q }]) =
      lines ++ [{ product := pid, quantity := jsIncrement q }] := by
  have hf : (lines ++ [({ product := pid, quantity := q } : CartLine)]).find?
      (fun l : CartLine => l.product == pid) = some { product := pid, quantity := q } := by
    induction lines with
    | nil => simp [List.find?]
    | cons a t ih =>
      have ha : a.product ≠ pid := h a (List.mem_cons_self _ _)
      rw [List.cons_append, List.find?_cons_of_neg _ (by simpa using ha)]
      exact ih (fun l hl => h l (List.mem_cons_of_mem _ hl))
  have hm : modifyFirst (fun l : CartLine => l.product == pid)
      (fun l => { l with quantity := jsIncrement l.quantity })
      (lines ++ [{ product := pid, quantity := q }]) =
      lines ++ [{ product := pid, quantity := jsIncrement q }] := by
    clear hf
    induction lines with
    | nil => simp [modifyFirst]
    | cons a t ih =>
      have ha : a.product ≠ pid := h a (List.mem_cons_self _ _)
      simp only [List.cons_append, modifyFirst]
      rw [if_neg (by simpa using ha)]
      exact congrArg (List.cons a) (ih (fun l hl => h l (List.mem_cons_of_mem _ hl)))
  unfold addLine
  rw [hf]
  exact hm

theorem attachProduct_productsFile (cid pid : String) (s : Store) :
    (attachProduct cid pid s).2.productsFile = s.productsFile := by
  simp only [attachProduct]
  split
  · rfl
  · split <;> rfl

theorem attachN_productsFile (cid pid : String) (n : Nat) (s : Store) :
    (attachN cid pid n s).productsFile = s.productsFile := by
  induction n with
  | zero => rfl
  | succ n ih => simp [attachN, attachProduct_productsFile, ih]

theorem attachN_find (cid pid : String) (s : Store) (cart : Cart) (prod : Obj)
    (hc : s.carts.find? (fun c => c.id == cid) = some cart)
    (hl : ∀ l ∈ cart.products, l.product ≠ pid)
    (hp : s.products.find? (hasId pid) = some prod) (n : Nat)
    (hn : 1 ≤ n) (hb : n ≤ 9007199254740992) :
    (attachN cid pid n s).carts.find? (fun c => c.id == cid) =
      some { cart with products := cart.products ++ [{ product := pid, quantity := n }] } := by
  induction n with
  | zero => omega
  | succ n ih =>
    cases n with
    | zero =>
      simp only [attachN]
      rw [attachProduct_find cid pid s cart prod hc hp, addLine_absent pid cart.products hl]
    | succ m =>
      have ih' := ih (by omega) (by omega)
      have hp' : (attachN cid pid (m + 1) s).products.find? (hasId pid) = some prod := by
        simpa [Store.products, attachN_productsFile] using hp
      rw [attachN, attachProduct_find cid pid _ _ prod ih' hp']
      simp only [addLine_append_self pid (m + 1) cart.products hl]
      rw [jsIncrement_exact (m + 1) (by omega)]

theorem attachN_saturated (cid pid : String) (s : Store) (cart : Cart) (prod : Obj)
    (hc : s.carts.find? (fun c => c.id == cid) = some cart)
    (hl : ∀ l ∈ cart.products, l.product ≠ pid)
    (hp : s.products.find? (hasId pid) = some prod) :
    (attachN cid pid (9007199254740992 + 1) s).carts.find? (fun c => c.id == cid) =
      some { cart with
        products := cart.products ++ [{ product := pid, quantity := 9007199254740992 }] } := by
  have h := attachN_find cid pid s cart prod hc hl hp 9007199254740992 (by decide) (by decide)
  have hp' : (attachN cid pid 9007199254740992 s).products.find? (hasId pid) = some prod := by
    simpa [Store.products, attachN_productsFile] using hp
  rw [attachN, attachProduct_find cid pid _ _ prod h hp']
  simp only [addLine_append_self pid 9007199254740992 cart.products hl]
  rfl

theorem attachN_getCart (cid pid : String) (s : Store) (cart : Cart) (n : Nat)
    (hn : 1 ≤ n) (hb : n ≤ 9007199254740992)
    (hc : s.carts.find? (fun c => c.id == cid) = some cart)
    (hl : ∀ l ∈ cart.products, l.product ≠ pid)
    (hp : ∃ p ∈ s.products, getProp p "id" = some (.str pid)) :
    (getCart cid (attachN cid pid n s)).1 =
      ⟨200, .cart { cart with products := cart.products ++ [{ product := pid, quantity := n }] }⟩ := by
  obtain ⟨prod, hprod⟩ := find?_product_isSome pid s.products hp
  exact getCart_of_find cid _ _ (attachN_find cid pid s cart prod hc hl hprod n hn hb)

/-- C3 fails as stated, twice. With a cart created at clock value 5 while cart `"5"` already
exists (`clashStore`), two requests for product `"2"` make `getCart "5"` return the older
cart, which also holds its line for product `"9"`. And `2^53 + 1` requests on the empty cart
`"7"` of `emptyCartStore` leave the line at quantity `2^53`, not `2^53 + 1`. -/
theorem attach_repeated_counterexample :
    ((createCart 5 clashStore).1 = ⟨201, .cart { id := "5", products := [] }⟩ ∧
      (getCart "5" (attachN "5" "2" 2 (createCart 5 clashStore).2)).1 =
        ⟨200, .cart { id := "5", products := [{ product := "9", quantity := 1 },
                                              { product := "2", quantity := 2 }] }⟩) ∧
    (getCart "7" (attachN "7" "2" (9007199254740992 + 1) emptyCartStore)).1 =
      ⟨200, .cart { id := "7",
                    products := [{ product := "2", quantity := 9007199254740992 }] }⟩ :=
  ⟨⟨rfl, rfl⟩,
    getCart_of_find "7" _ _
      (attachN_saturated "7" "2" emptyCartStore { id := "7", products := [] }
        [("id", .str "2")] rfl (by simp) rfl)⟩

/-- C3, amended: if the cart `cid` has no line for `pid` and a product `pid` exists, then for
`1 ≤ n ≤ 2^53` each of `n` successive `attachProduct cid pid` requests answers 200 and
`getCart cid` afterwards returns the cart with its old lines followed by one line for `pid`
of quantity `n`, which is its only line for `pid`. In particular two requests on a cart
just created under an id that no cart had yet return
`{ id, products: [{ product: pid, quantity: 2 }] }`, and so does the scenario create the
pen, create a cart, attach twice, get the cart, run from the empty files at any clock
values. -/
theorem attach_repeated :
    (∀ (cid pid : String) (s : Store) (cart : Cart) (n : Nat), 1 ≤ n →
      n ≤ 9007199254740992 →
      s.carts.find? (fun c => c.id == cid) = some cart →
      (∀ l ∈ cart.products, l.product ≠ pid) →
      (∃ p ∈ s.products, getProp p "id" = some (.str pid)) →
      (∀ k, k < n → (attachProduct cid pid (attachN cid pid k s)).1.status = 200) ∧
      (getCart cid (attachN cid pid n s)).1 =
        ⟨200, .cart { id := cart.id,
                      products := cart.products ++ [{ product := pid, quantity := n }] }⟩ ∧
      (cart.products ++ [({ product := pid, quantity := n } : CartLine)]).filter
        (fun l : CartLine => l.product == pid) = [{ product := pid, quantity := n }]) ∧
    (∀ (pid : String) (s : Store) (now : Nat),
      (∀ c ∈ s.carts, c.id ≠ toString now) →
      (∃ p ∈ s.products, getProp p "id" = some (.str pid)) →
      (getCart (toString now) (attachN (toString now) pid 2 (createCart now s).2)).1 =
        ⟨200, .cart { id := toString now, products := [{ product := pid, quantity := 2 }] }⟩) ∧
    (∀ t1 t2 : Nat,
      (getCart (toString t2) (run [.createProduct t1 penBody, .createCart t2,
        .attachProduct (toString t2) (toString t1),
        .attachProduct (toString t2) (toString t1)] Store.empty)).1 =
        ⟨200, .cart { id := toString t2,
                      products := [{ product := toString t1, quantity := 2 }] }⟩) := by
  have hfresh : ∀ (pid : String) (s : Store) (now : Nat),
      (∀ c ∈ s.carts, c.id ≠ toString now) →
      (∃ p ∈ s.products, getProp p "id" = some (.str pid)) →
      (getCart (toString now) (attachN (toString now) pid 2 (createCart now s).2)).1 =
        ⟨200, .cart { id := toString now,
                      products := [{ product := pid, quantity := 2 }] }⟩ := by
    intro pid s now hc hp
    have hfind : (createCart now s).2.carts.find? (fun c => c.id == toString now) =
        some { id := toString now, products := [] } := by
      have hnone : s.carts.find? (fun c : Cart => c.id == toString now) = none := by
        apply List.find?_eq_none.mpr
        intro c hc' hh
        exact hc c hc' (by simpa using hh)
      rw [createCart_carts, List.find?_append, hnone]
      simp [List.find?]
    have := attachN_getCart (toString now) pid (createCart now s).2 _ 2 (by omega)
      (by decide) hfind (by simp) (by simpa [createCart, Store.products] using hp)
    simpa using this
  refine ⟨?_, hfresh, ?_⟩
  · intro cid pid s cart n hn hb hc hl hp
    obtain ⟨prod, hprod⟩ := find?_product_isSome pid s.products hp
    refine ⟨?_, attachN_getCart cid pid s cart n hn hb hc hl hp, ?_⟩
    · intro k hk
      have hp' : (attachN cid pid k s).products.find? (hasId pid) = some prod := by
        simpa [Store.products, attachN_productsFile] using hprod
      cases k with
      | zero => rw [attachN, attachProduct_ok cid pid s cart prod hc hprod]
      | succ k =>
        rw [attachProduct_ok cid pid _ _ prod
          (attachN_find cid pid s cart prod hc hl hprod (k + 1) (by omega) (by omega)) hp']
    · rw [List.filter_append]
      have : cart.products.filter (fun l => l.product == pid) = [] := by
        apply List.filter_eq_nil_iff.mpr
        intro l hl' hh
        exact hl l hl' (by simpa using hh)
      rw [this]
      simp [List.filter]
  · intro t1 t2
    have hs : (createProduct t1 penBody Store.empty).2 =
        { productsFile := some [[("id", .str (toString t1)), ("title", .str "Pen"),
            ("description", .str "Blue pen"), ("code", .str "PN1"), ("price", oneAndHalf),
            ("status", .bool true), ("stock", hundred), ("category", .str "office"),
            ("thumbnails", .arr [])]],
          cartsFile := none } := by
      simp [createProduct, newProduct, penBody, getProp, truthy, truthyOpt, literal,
        Store.empty, readFile, writeFile, jsOr, oneAndHalf, hundred]
    have h := hfresh (toString t1) (createProduct t1 penBody Store.empty).2 t2
      (by rw [hs]; simp [Store.carts, readFile])
      ⟨jsonObj _, by rw [hs]; exact List.mem_cons_self _ _,
        (getProp_jsonObj_str _ _ _).mpr (by simp [getProp])⟩
    simpa [run, handle, attachN] using h

/-- C3 amended, at a concrete input: three requests on cart `"7"`, which holds a line for
another product. -/
theorem attach_repeated_witness :
    (getCart "7" (attachN "7" "2" 3
      { productsFile := some [[("id", .str "2")]],
        cartsFile := some [{ id := "7", products := [{ product := "9", quantity := 1 }] }] })).1 =
      ⟨200, .cart { id := "7", products := [{ product := "9", quantity := 1 },
                                            { product := "2", quantity := 3 }] }⟩ :=
  (attach_repeated.1 "7" "2"
    { productsFile := some [[("id", .str "2")]],
      cartsFile := some [{ id := "7", products := [{ product := "9", quantity := 1 }] }] }
    { id := "7", products := [{ product := "9", quantity := 1 }] } 3 (by decide) (by decide) rfl
    (by decide) ⟨_, List.mem_cons_self _ _, rfl⟩).2.1

/-! ## Failing requests -/

theorem attachProduct_cart_missing (cid pid : String) (s : Store)
    (hc : ¬ ∃ c ∈ s.carts, c.id = cid) :
    attachProduct cid pid s = (⟨404, .error "Cart not found"⟩, s) := by
  have hnone := find?_cart_none cid s.carts hc
  unfold Store.carts at hnone
  simp [attachProduct, hnone]

theorem attachProduct_product_missing (cid pid : String) (s : Store)
    (hc : ∃ c ∈ s.carts, c.id = cid)
    (hp : ¬ ∃ p ∈ s.products, getProp p "id" = some (.str pid)) :
    attachProduct cid pid s = (⟨404, .error "Product not found"⟩, s) := by
  obtain ⟨cart, hcart⟩ := find?_cart_isSome cid s.carts hc
  have hnone := find?_product_none pid s.products hp
  unfold Store.carts at hcart
  unfold Store.products at hnone
  simp [attachProduct, hcart, hnone]

/-- C4: `attachProduct` answers 404 exactly when no cart has id `cid` or no product has id
`pid`, and 200 otherwise. The cart is looked up first: with no such cart the answer is
"Cart not found", whatever the products are, and the answer is "Product not found" exactly
when the cart exists and the product does not. -/
theorem attachProduct_notFound (cid pid : String) (s : Store) :
    ((attachProduct cid pid s).1.status = 404 ↔
      (¬ ∃ c ∈ s.carts, c.id = cid) ∨ (¬ ∃ p ∈ s.products, getProp p "id" = some (.str pid))) ∧
    ((attachProduct cid pid s).1.status = 404 ∨ (attachProduct cid pid s).1.status = 200) ∧
    ((attachProduct cid pid s).1 = ⟨404, .error "Cart not found"⟩ ↔
      ¬ ∃ c ∈ s.carts, c.id = cid) ∧
    ((attachProduct cid pid s).1 = ⟨404, .error "Product not found"⟩ ↔
      (∃ c ∈ s.carts, c.id = cid) ∧ ¬ ∃ p ∈ s.products, getProp p "id" = some (.str pid)) := by
  by_cases hc : ∃ c ∈ s.carts, c.id = cid
  · by_cases hp : ∃ p ∈ s.products, getProp p "id" = some (.str pid)
    · obtain ⟨cart, hcart⟩ := find?_cart_isSome cid s.carts hc
      obtain ⟨prod, hprod⟩ := find?_product_isSome pid s.products hp
      rw [attachProduct_ok cid pid s cart prod hcart hprod]
      simp [hc, hp]
    · rw [attachProduct_product_missing cid pid s hc hp]
      simp [hc, hp]
  · rw [attachProduct_cart_missing cid pid s hc]
    simp [hc]

/-- C4, at a concrete input: on `sampleStore` the cart `"8"` and the product `"9"` are both
missing, and the answer names the cart. -/
theorem attachProduct_notFound_witness :
    (attachProduct "8" "9" sampleStore).1 = ⟨404, .error "Cart not found"⟩ :=
  (attachProduct_notFound "8" "9" sampleStore).2.2.1.mpr (by decide)

theorem handle_failure_unchanged (op : Op) (s : Store)
    (h : 400 ≤ (handle op s).1.status) : (handle op s).2 = s := by
  cases op with
  | listProducts limit =>
    simp only [handle, listProducts]
    split
    · split <;> rfl
    · rfl
  | getProduct pid =>
    simp only [handle, getProduct]
    split <;> rfl
  | createProduct now body =>
    simp only [handle, createProduct] at h ⊢
    split
    · rfl
    · rename_i hv
      rw [if_neg hv] at h
      simp at h
  | updateProduct pid body =>
    simp only [handle, updateProduct] at h ⊢
    split
    · rfl
    · rename_i i hi
      rw [hi] at h
      simp at h
  | deleteProduct pid =>
    simp only [handle, deleteProduct] at h ⊢
    split
    · rfl
    · rename_i hne
      rw [if_neg hne] at h
      simp at h
  | createCart now =>
    simp [handle, createCart] at h
  | getCart cid =>
    simp only [handle, getCart]
    split <;> rfl
  | attachProduct cid pid =>
    simp only [handle, attachProduct] at h ⊢
    split
    · rfl
    · rename_i cart hcart
      rw [hcart] at h
      split
      · rfl
      · rename_i prod hprod
        simp [hprod] at h

/-- C5: a request that is answered with an error status (400 or 404, the only statuses of
400 and above) leaves both files exactly as they were; in particular `attachProduct` on a
known cart with an unknown product answers 404 "Product not found" and adds no line. -/
theorem failure_writes_nothing :
    (∀ op s, 400 ≤ (handle op s).1.status →
      (handle op s).2 = s ∧
      ((handle op s).1.status = 400 ∨ (handle op s).1.status = 404)) ∧
    (∀ cid pid s, (∃ c ∈ s.carts, c.id = cid) →
      (¬ ∃ p ∈ s.products, getProp p "id" = some (.str pid)) →
      (attachProduct cid pid s).1 = ⟨404, .error "Product not found"⟩ ∧
      (attachProduct cid pid s).2 = s) := by
  constructor
  · intro op s h
    refine ⟨handle_failure_unchanged op s h, ?_⟩
    cases op with
    | listProducts limit =>
      simp only [handle, listProducts] at h
      split at h
      · split at h <;> simp at h
      · simp at h
    | getProduct pid =>
      simp only [handle, getProduct] at h ⊢
      split <;> simp_all
    | createProduct now body =>
      simp only [handle, createProduct] at h ⊢
      split
      · simp
      · rename_i hv
        rw [if_neg hv] at h
        simp at h
    | updateProduct pid body =>
      simp only [handle, updateProduct] at h ⊢
      split
      · simp
      · rename_i i hi
        rw [hi] at h
        simp at h
    | deleteProduct pid =>
      simp only [handle, deleteProduct] at h ⊢
      split <;> simp_all
    | createCart now => simp [handle, createCart] at h
    | getCart cid =>
      simp only [handle, getCart] at h ⊢
      split <;> simp_all
    | attachProduct cid pid =>
      simp only [handle] at h ⊢
      by_cases hc : ∃ c ∈ s.carts, c.id = cid
      · by_cases hp : ∃ p ∈ s.products, getProp p "id" = some (.str pid)
        · obtain ⟨cart, hcart⟩ := find?_cart_isSome cid s.carts hc
          obtain ⟨prod, hprod⟩ := find?_product_isSome pid s.products hp
          rw [attachProduct_ok cid pid s cart prod hcart hprod] at h
          simp at h
        · rw [attachProduct_product_missing cid pid s hc hp]
          simp
      · rw [attachProduct_cart_missing cid pid s hc]
        simp
  · intro cid pid s hc hp
    rw [attachProduct_product_missing cid pid s hc hp]
    exact ⟨rfl, rfl⟩

/-- C5, at a concrete input: on `sampleStore`, attaching the unknown product `"9"` to the
known cart `"1"`. -/
theorem failure_writes_nothing_witness :
    (attachProduct "1" "9" sampleStore).1 = ⟨404, .error "Product not found"⟩ ∧
    (attachProduct "1" "9" sampleStore).2 = sampleStore :=
  failure_writes_nothing.2 "1" "9" sampleStore (by decide)
    (by
      rintro ⟨p, hp, hid⟩
      have hp' : p ∈ [[("id", JVal.str "2"), ("title", JVal.str "Pen")]] := hp
      simp at hp'
      subst hp'
      simp [getProp] at hid)

/-! ## Listing products -/

theorem slice_sublist {α : Type} (xs : List α) (start stop : Int) :
    (slice xs start stop).Sublist xs := by
  unfold slice
  exact (List.take_sublist _ _).trans (List.drop_sublist _ _)

theorem listProducts_of_nonzero (limit : Option String) (n : Int) (s : Store)
    (h : parseLimit limit = some n) (hn : n ≠ 0) :
    listProducts limit s = (⟨200, .products (slice s.products 0 n)⟩, s) := by
  simp only [listProducts, h, if_pos hn]
  rw [show readFile jsonObj s.productsFile = s.products from rfl,
    map_jsonObj_sublist s _ (slice_sublist s.products 0 n)]

theorem listProducts_of_ignored (limit : Option String) (s : Store)
    (h : parseLimit limit = none ∨ parseLimit limit = some 0) :
    listProducts limit s = (⟨200, .products s.products⟩, s) := by
  rcases h with h | h
  · simp only [listProducts, h]
    rw [show readFile jsonObj s.productsFile = s.products from rfl, map_jsonObj_products]
  · simp only [listProducts, h]
    rw [show readFile jsonObj s.productsFile = s.products from rfl, map_jsonObj_products]
    simp

theorem slice_zero_pos {α : Type} (xs : List α) (n : Int) (h : 0 < n) :
    slice xs 0 n = xs.take (min n.toNat xs.length) := by
  unfold slice
  have h1 : ¬ ((0 : Int) < 0) := by omega
  have h2 : ¬ (n < 0) := by omega
  simp only [h1, h2, if_false]
  have h3 : (min (0 : Int) (xs.length : Int)).toNat = 0 := by omega
  have h4 : (min n (xs.length : Int) - min (0 : Int) (xs.length : Int)).toNat
      = min n.toNat xs.length := by omega
  rw [h3, h4]
  simp

theorem listProducts_store (limit : Option String) (s : Store) :
    (listProducts limit s).2 = s := by
  simp only [listProducts]
  split
  · split <;> rfl
  · rfl

/-- C7: when the limit parses to a positive integer `n`, the answer is the first
`min n length` products in their stored order, and nothing is written; with no limit
supplied the answer is the whole collection in order; an empty collection gives the empty
sequence whatever the limit. -/
theorem listProducts_limit :
    (∀ (limit : Option String) (n : Int) (s : Store), parseLimit limit = some n → 0 < n →
      (listProducts limit s).1 =
        ⟨200, .products (s.products.take (min n.toNat s.products.length))⟩ ∧
      (listProducts limit s).2 = s) ∧
    (∀ s : Store, (listProducts none s).1 = ⟨200, .products s.products⟩) ∧
    (∀ (limit : Option String) (s : Store), s.products = [] →
      (listProducts limit s).1 = ⟨200, .products []⟩) := by
  refine ⟨?_, ?_, ?_⟩
  · intro limit n s hn hpos
    refine ⟨?_, listProducts_store limit s⟩
    have hne : n ≠ 0 := by omega
    rw [listProducts_of_nonzero limit n s hn hne, slice_zero_pos _ n hpos]
  · intro s
    rw [listProducts_of_ignored none s (Or.inl (by decide))]
  · intro limit s hs
    cases hl : parseLimit limit with
    | none => rw [listProducts_of_ignored limit s (Or.inl hl), hs]
    | some n =>
      by_cases hn : n = 0
      · subst hn
        rw [listProducts_of_ignored limit s (Or.inr hl), hs]
      · rw [listProducts_of_nonzero limit n s hl hn, hs]
        simp [slice]

/-- C7, at a concrete input: `limit=2` on the five products of `fiveProducts`. -/
theorem listProducts_limit_witness :
    parseLimit (some "2") = some 2 ∧
    (listProducts (some "2") fiveProducts).1 =
      ⟨200, .products [[("id", .str "1")], [("id", .str "2")]]⟩ :=
  ⟨by decide, (listProducts_limit.1 (some "2") 2 fiveProducts (by decide) (by decide)).1⟩

/-- C6 fails as stated: `limit=-1` parses to `-1`, which is not ignored; on five products the
answer is the first four, not all five. -/
theorem listProducts_negative_limit_counterexample :
    parseLimit (some "-1") = some (-1) ∧
    (listProducts (some "-1") fiveProducts).1 =
      ⟨200, .products [[("id", .str "1")], [("id", .str "2")], [("id", .str "3")],
        [("id", .str "4")]]⟩ ∧
    (listProducts (some "-1") fiveProducts).1 ≠ ⟨200, .products fiveProducts.products⟩ := by
  refine ⟨by decide, rfl, ?_⟩
  intro h
  have h2 := congrArg (fun r : Response =>
    match r.body with
    | .products ps => ps.length
    | _ => 0) h
  revert h2
  decide

/-- C6, amended: a limit that is not numeric, or that parses to zero, is ignored and the
whole product sequence is returned, with nothing written. -/
theorem listProducts_ignored_limit (limit : Option String) (s : Store)
    (h : parseLimit limit = none ∨ parseLimit limit = some 0) :
    (listProducts limit s).1 = ⟨200, .products s.products⟩ ∧ (listProducts limit s).2 = s := by
  refine ⟨?_, listProducts_store limit s⟩
  rw [listProducts_of_ignored limit s h]

/-- C6 amended, at concrete inputs: `limit=abc` and `limit=0` on five products. -/
theorem listProducts_ignored_limit_witness :
    (parseLimit (some "abc") = none ∧
      (listProducts (some "abc") fiveProducts).1 = ⟨200, .products fiveProducts.products⟩) ∧
    (parseLimit (some "0") = some 0 ∧
      (listProducts (some "0") fiveProducts).1 = ⟨200, .products fiveProducts.products⟩) :=
  ⟨⟨by decide, (listProducts_ignored_limit (some "abc") fiveProducts (Or.inl (by decide))).1⟩,
   ⟨by decide, (listProducts_ignored_limit (some "0") fiveProducts (Or.inr (by decide))).1⟩⟩

/-! ## Objects: reads after writes -/

theorem getProp_setProp (o : Obj) (k k' : String) (v : JVal) :
    getProp (setProp o k v) k' = if k = k' then some v else getProp o k' := by
  induction o with
  | nil => simp [setProp, getProp]
  | cons a t ih =>
    obtain ⟨ka, va⟩ := a
    by_cases h1 : ka = k
    · subst h1
      by_cases h2 : ka = k' <;> simp [setProp, getProp, h2]
    · by_cases h2 : ka = k'
      · subst h2
        simp [setProp, getProp, h1, Ne.symm h1]
      · simp [setProp, getProp, h1, h2, ih]

theorem getProp_append (a b : Obj) (k : String) :
    getProp (a ++ b) k = (getProp a k).or (getProp b k) := by
  induction a with
  | nil => simp [getProp]
  | cons x t ih =>
    obtain ⟨kx, vx⟩ := x
    by_cases h : kx = k <;> simp [getProp, h, ih]

theorem getProp_eq_none_of_not_mem (o : Obj) (k : String) (h : k ∉ o.map Prod.fst) :
    getProp o k = none := by
  induction o with
  | nil => rfl
  | cons x t ih =>
    obtain ⟨kx, vx⟩ := x
    simp at h
    have h1 : ¬ kx = k := fun e => h.1 e.symm
    simp only [getProp, if_neg h1]
    apply ih
    simpa using h.2

theorem getProp_reverse (o : Obj) (k : String) (h : WF o) :
    getProp o.reverse k = getProp o k := by
  induction o with
  | nil => rfl
  | cons x t ih =>
    obtain ⟨kx, vx⟩ := x
    have hw : WF t := (List.nodup_cons.mp h).2
    have hnot : kx ∉ t.map Prod.fst := (List.nodup_cons.mp h).1
    rw [List.reverse_cons, getProp_append, ih hw]
    by_cases hk : kx = k
    · subst hk
      simp [getProp, getProp_eq_none_of_not_mem t kx hnot]
    · simp only [getProp, if_neg hk]
      cases getProp t k <;> simp

theorem getProp_foldl_setProp (l acc : Obj) (k : String) :
    getProp (l.foldl (fun a kv => setProp a kv.1 kv.2) acc) k =
      (getProp l.reverse k).or (getProp acc k) := by
  induction l generalizing acc with
  | nil => simp [getProp]
  | cons x t ih =>
    obtain ⟨kx, vx⟩ := x
    rw [List.foldl_cons, ih, getProp_setProp, List.reverse_cons, getProp_append]
    by_cases hk : kx = k
    · cases hg : getProp t.reverse k <;> simp [getProp, hk]
    · cases hg : getProp t.reverse k <;> simp [getProp, hk]

theorem getProp_deleteProp (o : Obj) (d k : String) :
    getProp (deleteProp o d) k = if k = d then none else getProp o k := by
  induction o with
  | nil => simp [deleteProp, getProp]
  | cons x t ih =>
    obtain ⟨kx, vx⟩ := x
    unfold deleteProp at ih ⊢
    by_cases h1 : kx = d
    · subst h1
      by_cases h2 : k = kx
      · subst h2
        simpa [List.filter] using ih
      · have h3 : ¬ kx = k := fun e => h2 e.symm
        simp only [List.filter, bne_self_eq_false, ih, if_neg h2, getProp, if_neg h3]
    · have hcons : List.filter (fun kv : String × JVal => kv.1 != d) ((kx, vx) :: t) =
          (kx, vx) :: List.filter (fun kv : String × JVal => kv.1 != d) t := by
        have hb : (kx != d) = true := by simpa using h1
        simp only [List.filter, hb]
      rw [hcons]
      by_cases h2 : kx = k
      · subst h2
        simp [getProp, h1]
      · simp only [getProp, if_neg h2]
        exact ih

theorem WF_deleteProp (o : Obj) (d : String) (h : WF o) : WF (deleteProp o d) := by
  unfold WF deleteProp at *
  exact h.sublist (List.Sublist.map _ (List.filter_sublist o))

theorem keys_setProp (o : Obj) (k : String) (v : JVal) :
    (setProp o k v).map Prod.fst =
      if k ∈ o.map Prod.fst then o.map Prod.fst else o.map Prod.fst ++ [k] := by
  induction o with
  | nil => simp [setProp]
  | cons x t ih =>
    obtain ⟨kx, vx⟩ := x
    by_cases h1 : kx = k
    · subst h1
      simp [setProp]
    · have h1' : ¬ k = kx := fun e => h1 e.symm
      simp only [setProp, if_neg h1, List.map_cons, ih, List.mem_cons, h1', false_or]
      split <;> simp

theorem WF_setProp (o : Obj) (k : String) (v : JVal) (h : WF o) : WF (setProp o k v) := by
  unfold WF at *
  rw [keys_setProp]
  split
  · exact h
  · next hk =>
    rw [List.nodup_append]
    refine ⟨h, by simp, ?_⟩
    intro a ha hb
    simp at hb
    subst hb
    exact hk ha

theorem WF_foldl_setProp (l acc : Obj) (h : WF acc) :
    WF (l.foldl (fun a kv => setProp a kv.1 kv.2) acc) := by
  induction l generalizing acc with
  | nil => exact h
  | cons x t ih => exact ih _ (WF_setProp acc x.1 x.2 h)

theorem WF_spread (a b : Obj) : WF (spread a b) :=
  WF_foldl_setProp (a ++ b) [] (by simp [WF])

theorem getProp_spread (a b : Obj) (k : String) (ha : WF a) (hb : WF b) :
    getProp (spread a b) k = (getProp b k).or (getProp a k) := by
  unfold spread
  rw [getProp_foldl_setProp, List.reverse_append, getProp_append, getProp_reverse b k hb,
    getProp_reverse a k ha]
  cases getProp b k <;> cases getProp a k <;> simp [getProp]

/-! ## `findIndex` -/

theorem findIndex_spec {α : Type} (p : α → Bool) (l : List α) (i : Nat)
    (h : findIndex p l = some i) :
    ∃ x, l[i]? = some x ∧ p x = true ∧ ∀ j, j < i → ∀ y, l[j]? = some y → p y = false := by
  induction l generalizing i with
  | nil => simp [findIndex] at h
  | cons a t ih =>
    by_cases ha : p a = true
    · simp [findIndex, ha] at h
      subst h
      exact ⟨a, by simp, ha, by intro j hj; omega⟩
    · simp only [findIndex, if_neg ha] at h
      cases hf : findIndex p t with
      | none => simp [hf] at h
      | some i' =>
        simp [hf] at h
        subst h
        obtain ⟨x, h1, h2, h3⟩ := ih i' hf
        refine ⟨x, by simpa using h1, h2, ?_⟩
        intro j hj y hy
        cases j with
        | zero => simp at hy; subst hy; simpa using ha
        | succ j => exact h3 j (by omega) y (by simpa using hy)

theorem findIndex_isSome {α : Type} (p : α → Bool) (l : List α)
    (h : ∃ x ∈ l, p x = true) : ∃ i, findIndex p l = some i := by
  induction l with
  | nil => simp at h
  | cons a t ih =>
    by_cases ha : p a = true
    · exact ⟨0, by simp [findIndex, ha]⟩
    · obtain ⟨x, hx, hpx⟩ := h
      rcases List.mem_cons.mp hx with hx | hx
      · subst hx; exact absurd hpx ha
      · obtain ⟨i, hi⟩ := ih ⟨x, hx, hpx⟩
        exact ⟨i + 1, by simp [findIndex, ha, hi]⟩

theorem findIndex_none {α : Type} (p : α → Bool) (l : List α)
    (h : ∀ x ∈ l, p x = false) : findIndex p l = none := by
  induction l with
  | nil => rfl
  | cons a t ih =>
    have ha : p a = false := h a (List.mem_cons_self _ _)
    simp [findIndex, ha, ih (fun x hx => h x (List.mem_cons_of_mem _ hx))]

/-! ## Updating a product -/

theorem updateProduct_ok (pid : String) (body : Obj) (s : Store) (i : Nat) (old : Obj)
    (hi : findIndex (hasId pid) s.products = some i) (ho : s.products[i]? = some old) :
    updateProduct pid body s =
      (⟨200, .product (jsonObj (spread old (deleteProp body "id")))⟩,
       { s with productsFile :=
          writeFile (s.products.set i (spread old (deleteProp body "id"))) }) := by
  unfold Store.products at hi ho
  simp only [updateProduct, hi, ho, spreadable, Store.products]

theorem updateProduct_products (pid : String) (body : Obj) (s : Store) (i : Nat) (old : Obj)
    (hi : findIndex (hasId pid) s.products = some i) (ho : s.products[i]? = some old) :
    (updateProduct pid body s).2.products =
      s.products.set i (jsonObj (spread old (deleteProp body "id"))) := by
  rw [updateProduct_ok pid body s i old hi ho, products_write, List.map_set,
    map_jsonObj_products]

theorem getProp_merged (old body : Obj) (k : String) (hs : jsonObj old = old)
    (hwo : WF old) (hwb : WF body) :
    getProp (jsonObj (spread old (deleteProp body "id"))) k =
      if k = "id" then getProp old "id"
      else ((getProp body k).map jsonVal).or (getProp old k) := by
  have hold : ∀ k', (getProp old k').map jsonVal = getProp old k' := by
    intro k'
    rw [← getProp_jsonObj, hs]
  rw [getProp_jsonObj, getProp_spread _ _ _ hwo (WF_deleteProp body "id" hwb),
    getProp_deleteProp]
  by_cases hk : k = "id"
  · subst hk
    simpa using hold "id"
  · rw [if_neg hk, if_neg hk]
    cases hb : getProp body k with
    | none => simpa using hold k
    | some v => simp

/-- C8 fails as stated: the body `{ price: Infinity }`, which is what `express.json()` makes
of the text `{"price": 1e400}`, sent for product `"2"` of `sampleStore`, is answered and
stored with `price: null`, not with the body's value. -/
theorem updateProduct_spec_counterexample :
    getProp [("price", infinity)] "price" = some infinity ∧
    (updateProduct "2" [("price", infinity)] sampleStore).1 =
      ⟨200, .product [("id", .str "2"), ("title", .str "Pen"), ("price", .null)]⟩ ∧
    (updateProduct "2" [("price", infinity)] sampleStore).2.products =
      [[("id", .str "2"), ("title", .str "Pen"), ("price", .null)]] ∧
    infinity ≠ JVal.null := by
  refine ⟨rfl, rfl, rfl, ?_⟩
  intro h
  cases h

/-- C8, amended: when a product with id `pid` exists (records and request body being objects
with distinct property names), `updateProduct` answers 200 with the merged record and
stores it at the position of the first record with that id: every other record and the
order of the collection are unchanged, the cart file is untouched, the record's `id` is the
prior one even when the body supplies an `id`, and every other field has the body's value
as JSON writes it (`jsonVal`: an infinite number in it becomes `null`, a `-0` becomes `0`,
nothing else changes) when the body supplies it and the prior value otherwise. -/
theorem updateProduct_spec (pid : String) (body : Obj) (s : Store)
    (hp : ∃ p ∈ s.products, getProp p "id" = some (.str pid))
    (hwf : ∀ p ∈ s.products, WF p) (hb : WF body) :
    ∃ (i : Nat) (old merged : Obj),
      s.products[i]? = some old ∧
      getProp old "id" = some (.str pid) ∧
      (∀ j, j < i → ∀ p, s.products[j]? = some p → getProp p "id" ≠ some (.str pid)) ∧
      (updateProduct pid body s).1 = ⟨200, .product merged⟩ ∧
      (updateProduct pid body s).2.products = s.products.set i merged ∧
      (updateProduct pid body s).2.cartsFile = s.cartsFile ∧
      getProp merged "id" = getProp old "id" ∧
      (∀ k, k ≠ "id" →
        getProp merged k = ((getProp body k).map jsonVal).or (getProp old k)) ∧
      (∀ k v, k ≠ "id" → getProp body k = some v → jsonVal v = v →
        getProp merged k = some v) ∧
      WF merged := by
  obtain ⟨p, hpm, hpid⟩ := hp
  obtain ⟨i, hi⟩ := findIndex_isSome (hasId pid) s.products ⟨p, hpm, (hasId_iff pid p).mpr hpid⟩
  obtain ⟨old, h1, h2, h3⟩ := findIndex_spec (hasId pid) s.products i hi
  have hwo : WF old := hwf old (List.getElem?_mem h1)
  have hso : jsonObj old = old := jsonObj_of_mem_products s old (List.getElem?_mem h1)
  refine ⟨i, old, jsonObj (spread old (deleteProp body "id")), h1, (hasId_iff pid old).mp h2,
    ?_, ?_, updateProduct_products pid body s i old hi h1, ?_, ?_, ?_, ?_, ?_⟩
  · intro j hj q hq hid
    have := h3 j hj q hq
    rw [(hasId_iff pid q).mpr hid] at this
    exact Bool.noConfusion this
  · rw [updateProduct_ok pid body s i old hi h1]
  · rw [updateProduct_ok pid body s i old hi h1]
  · rw [getProp_merged old body "id" hso hwo hb]
    simp
  · intro k hk
    rw [getProp_merged old body k hso hwo hb, if_neg hk]
  · intro k v hk hv hstable
    rw [getProp_merged old body k hso hwo hb, if_neg hk, hv]
    simp [hstable]
  · unfold WF
    rw [keys_jsonObj]
    exact WF_spread _ _

/-- C8 amended, at a concrete input: `{ price: 50, id: "other" }` sent for product `"2"` of
`sampleStore` sets the price, keeps the title and keeps the id. -/
theorem updateProduct_spec_witness :
    (updateProduct "2" [("price", fifty), ("id", .str "other")] sampleStore).1 =
      ⟨200, .product [("id", .str "2"), ("title", .str "Pen"), ("price", fifty)]⟩ ∧
    ∃ (i : Nat) (old merged : Obj),
      sampleStore.products[i]? = some old ∧
      getProp old "id" = some (.str "2") ∧
      (∀ j, j < i → ∀ p, sampleStore.products[j]? = some p →
        getProp p "id" ≠ some (.str "2")) ∧
      (updateProduct "2" [("price", fifty), ("id", .str "other")] sampleStore).1 =
        ⟨200, .product merged⟩ ∧
      (updateProduct "2" [("price", fifty), ("id", .str "other")] sampleStore).2.products
        = sampleStore.products.set i merged ∧
      (updateProduct "2" [("price", fifty), ("id", .str "other")] sampleStore).2.cartsFile
        = sampleStore.cartsFile ∧
      getProp merged "id" = getProp old "id" ∧
      (∀ k, k ≠ "id" → getProp merged k =
        ((getProp [("price", fifty), ("id", .str "other")] k).map jsonVal).or
          (getProp old k)) ∧
      (∀ k v, k ≠ "id" → getProp [("price", fifty), ("id", .str "other")] k = some v →
        jsonVal v = v → getProp merged k = some v) ∧
      WF merged :=
  ⟨rfl, updateProduct_spec "2" [("price", fifty), ("id", .str "other")] sampleStore
    ⟨_, List.mem_cons_self _ _, rfl⟩
    (by
      intro p hp
      have hp' : p ∈ [[("id", JVal.str "2"), ("title", JVal.str "Pen")]] := hp
      simp at hp'
      subst hp'
      simp [WF])
    (by simp [WF])⟩

/-! ## Creating a product -/

theorem truthyOpt_eq_true (v : Option JVal) (h : truthyOpt v = true) :
    ∃ x, v = some x ∧ truthy x = true := by
  cases v with
  | none => simp [truthyOpt] at h
  | some x => exact ⟨x, rfl, by simpa [truthyOpt] using h⟩

theorem createProduct_ok (now : Nat) (body : Obj) (s : Store)
    (hok : (createProduct now body s).1.status = 201) :
    createProduct now body s =
      (⟨201, .product (jsonObj (newProduct now body))⟩,
       { s with productsFile := writeFile (s.products ++ [newProduct now body]) }) ∧
    ∃ title description code price stock category : JVal,
      getProp body "title" = some title ∧ getProp body "description" = some description ∧
      getProp body "code" = some code ∧ getProp body "price" = some price ∧
      getProp body "stock" = some stock ∧ getProp body "category" = some category ∧
      newProduct now body =
        [("id", .str (toString now)), ("title", title),
          ("description", description), ("code", code), ("price", price),
          ("status", .bool true), ("stock", stock), ("category", category),
          ("thumbnails", jsOr (getProp body "thumbnails") (.arr []))] := by
  by_cases hv : (!truthyOpt (getProp body "title") || !truthyOpt (getProp body "description")
      || !truthyOpt (getProp body "code") || !truthyOpt (getProp body "price")
      || !truthyOpt (getProp body "stock") || !truthyOpt (getProp body "category")) = true
  · simp only [createProduct, if_pos hv] at hok
    simp at hok
  · have hv' := hv
    simp only [Bool.or_eq_true, Bool.not_eq_true', not_or, Bool.not_eq_false] at hv'
    obtain ⟨⟨⟨⟨⟨h1, h2⟩, h3⟩, h4⟩, h5⟩, h6⟩ := hv'
    obtain ⟨title, ht, _⟩ := truthyOpt_eq_true _ h1
    obtain ⟨description, hd, _⟩ := truthyOpt_eq_true _ h2
    obtain ⟨code, hc, _⟩ := truthyOpt_eq_true _ h3
    obtain ⟨price, hp, _⟩ := truthyOpt_eq_true _ h4
    obtain ⟨stock, hs, _⟩ := truthyOpt_eq_true _ h5
    obtain ⟨category, hg, _⟩ := truthyOpt_eq_true _ h6
    refine ⟨?_, title, description, code, price, stock, category, ht, hd, hc, hp, hs, hg, ?_⟩
    · simp only [createProduct, if_neg hv, Store.products]
    · simp [newProduct, ht, hd, hc, hp, hs, hg, literal]

theorem createProduct_products_ok (now : Nat) (body : Obj) (s : Store)
    (hok : (createProduct now body s).1.status = 201) :
    (createProduct now body s).2.products = s.products ++ [jsonObj (newProduct now body)] := by
  rw [(createProduct_ok now body s hok).1, products_write, List.map_append,
    map_jsonObj_products]
  rfl

theorem find?_append_fresh (pid : String) (ps : List Obj) (rec : Obj)
    (hfresh : ∀ p ∈ ps, getProp p "id" ≠ some (.str pid))
    (hrec : getProp rec "id" = some (.str pid)) :
    (ps ++ [rec]).find? (hasId pid) = some rec := by
  have hnone : ps.find? (hasId pid) = none := by
    apply List.find?_eq_none.mpr
    intro p hp hh
    exact hfresh p hp ((hasId_iff pid p).mp hh)
  rw [List.find?_append, hnone]
  simp [List.find?, (hasId_iff pid rec).mpr hrec]

theorem getProduct_of_find (pid : String) (s : Store) (p : Obj)
    (h : s.products.find? (hasId pid) = some p) :
    (getProduct pid s).1 = ⟨200, .product p⟩ := by
  have hp : jsonObj p = p := jsonObj_of_mem_products s p (List.mem_of_find?_eq_some h)
  unfold Store.products at h
  simp only [getProduct, h, hp]

/-- C9 fails as stated, in four ways. (1) At clock value 1700000000000 the pen is created in
a collection that already holds the pencil created at the same clock value; the create
answers with the pen, but `getProduct` with the id it returned answers with the pencil.
(2) A pen whose price is `Infinity`, which is what `express.json()` makes of the text
`1e400`, is stored and returned with `price: null`. (3) A field of the body other than the
seven that the handler reads, here `color`, is not in the record. (4) A `thumbnails` value
that is supplied but falsy, here the empty string, is replaced by `[]`. -/
theorem createProduct_then_get_counterexample :
    ((createProduct 1700000000000 penBody pencilStore).1 =
        ⟨201, .product [("id", .str "1700000000000"), ("title", .str "Pen"),
          ("description", .str "Blue pen"), ("code", .str "PN1"), ("price", oneAndHalf),
          ("status", .bool true), ("stock", hundred), ("category", .str "office"),
          ("thumbnails", .arr [])]⟩ ∧
      (getProduct "1700000000000" (createProduct 1700000000000 penBody pencilStore).2).1 =
        ⟨200, .product [("id", .str "1700000000000"), ("title", .str "Pencil"),
          ("description", .str "HB pencil"), ("code", .str "PC1"), ("price", half),
          ("status", .bool true), ("stock", twenty), ("category", .str "office"),
          ("thumbnails", .arr [])]⟩) ∧
    (getProp (setProp penBody "price" infinity) "price" = some infinity ∧
      (getProduct "1700000000000"
        (createProduct 1700000000000 (setProp penBody "price" infinity) Store.empty).2).1 =
        ⟨200, .product [("id", .str "1700000000000"), ("title", .str "Pen"),
          ("description", .str "Blue pen"), ("code", .str "PN1"), ("price", .null),
          ("status", .bool true), ("stock", hundred), ("category", .str "office"),
          ("thumbnails", .arr [])]⟩) ∧
    (getProp (setProp penBody "color" (.str "blue")) "color" = some (.str "blue") ∧
      (getProduct "1700000000000"
        (createProduct 1700000000000 (setProp penBody "color" (.str "blue")) Store.empty).2).1 =
        ⟨200, .product [("id", .str "1700000000000"), ("title", .str "Pen"),
          ("description", .str "Blue pen"), ("code", .str "PN1"), ("price", oneAndHalf),
          ("status", .bool true), ("stock", hundred), ("category", .str "office"),
          ("thumbnails", .arr [])]⟩) ∧
    (getProp (setProp penBody "thumbnails" (.str "")) "thumbnails" = some (.str "") ∧
      (getProduct "1700000000000"
        (createProduct 1700000000000 (setProp penBody "thumbnails" (.str "")) Store.empty).2).1 =
        ⟨200, .product [("id", .str "1700000000000"), ("title", .str "Pen"),
          ("description", .str "Blue pen"), ("code", .str "PN1"), ("price", oneAndHalf),
          ("status", .bool true), ("stock", hundred), ("category", .str "office"),
          ("thumbnails", .arr [])]⟩) :=
  ⟨⟨rfl, rfl⟩, ⟨rfl, rfl⟩, ⟨rfl, rfl⟩, ⟨rfl, rfl⟩⟩

/-- C9, amended: when `createProduct` succeeds at a clock value whose decimal string is not
already the id of a stored product, `getProduct` with the returned id answers with the
record that the create returned. Its properties are exactly `id`, the assigned id;
`status`, which is `true`; the six required fields with the body's values as JSON writes
them (`jsonVal`: an infinite number in it becomes `null`, a `-0` becomes `0`, nothing else
changes); and `thumbnails`, which is the body's value as JSON writes it when the body
supplies a truthy one, and `[]` when the body has none or a falsy one. -/
theorem createProduct_then_get (now : Nat) (body : Obj) (s : Store)
    (hok : (createProduct now body s).1.status = 201)
    (hfresh : ∀ p ∈ s.products, getProp p "id" ≠ some (.str (toString now))) :
    ∃ rec : Obj,
      (createProduct now body s).1 = ⟨201, .product rec⟩ ∧
      (getProduct (toString now) (createProduct now body s).2).1 = ⟨200, .product rec⟩ ∧
      rec.map Prod.fst = ["id", "title", "description", "code", "price", "status", "stock",
        "category", "thumbnails"] ∧
      getProp rec "id" = some (.str (toString now)) ∧
      getProp rec "status" = some (.bool true) ∧
      (∀ k ∈ requiredFields, getProp rec k = (getProp body k).map jsonVal) ∧
      (∀ k ∈ requiredFields, ∀ v, getProp body k = some v → jsonVal v = v →
        getProp rec k = some v) ∧
      getProp rec "thumbnails" = some (jsonVal (jsOr (getProp body "thumbnails") (.arr []))) ∧
      (getProp body "thumbnails" = none → getProp rec "thumbnails" = some (.arr [])) ∧
      (∀ v, getProp body "thumbnails" = some v → truthy v = true →
        getProp rec "thumbnails" = some (jsonVal v)) ∧
      (∀ v, getProp body "thumbnails" = some v → truthy v = false →
        getProp rec "thumbnails" = some (.arr [])) := by
  obtain ⟨heq, title, description, code, price, stock, category, ht, hd, hc, hp, hs, hg, hnew⟩ :=
    createProduct_ok now body s hok
  have hfields : ∀ k ∈ requiredFields,
      getProp (jsonObj (newProduct now body)) k = (getProp body k).map jsonVal := by
    intro k hk
    rw [getProp_jsonObj, hnew]
    simp [requiredFields] at hk
    rcases hk with rfl | rfl | rfl | rfl | rfl | rfl <;> simp [getProp, ht, hd, hc, hp, hs, hg]
  have hthumb : getProp (jsonObj (newProduct now body)) "thumbnails" =
      some (jsonVal (jsOr (getProp body "thumbnails") (.arr []))) := by
    rw [getProp_jsonObj, hnew]
    simp [getProp]
  refine ⟨jsonObj (newProduct now body), by rw [heq], ?_, ?_, ?_, ?_, hfields, ?_, hthumb,
    ?_, ?_, ?_⟩
  · apply getProduct_of_find
    rw [createProduct_products_ok now body s hok]
    apply find?_append_fresh (toString now) s.products _ hfresh
    rw [getProp_jsonObj_str, hnew]
    simp [getProp]
  · rw [keys_jsonObj, hnew]
    rfl
  · rw [getProp_jsonObj_str, hnew]
    simp [getProp]
  · rw [getProp_jsonObj, hnew]
    simp [getProp, jsonVal]
  · intro k hk v hv hstable
    rw [hfields k hk, hv]
    simp [hstable]
  · intro hn
    rw [hthumb, hn]
    simp [jsOr, jsonVal, jsonList]
  · intro v hv htr
    rw [hthumb, hv]
    simp [jsOr, htr]
  · intro v hv htr
    rw [hthumb, hv]
    simp [jsOr, htr, jsonVal, jsonList]

/-- C9 amended, at a concrete input: the pen created from the empty files. -/
theorem createProduct_then_get_witness :
    (getProduct "1700000000000" (createProduct 1700000000000 penBody Store.empty).2).1 =
      ⟨200, .product [("id", .str "1700000000000"), ("title", .str "Pen"),
        ("description", .str "Blue pen"), ("code", .str "PN1"), ("price", oneAndHalf),
        ("status", .bool true), ("stock", hundred), ("category", .str "office"),
        ("thumbnails", .arr [])]⟩ ∧
    ∃ rec : Obj,
      (createProduct 1700000000000 penBody Store.empty).1 = ⟨201, .product rec⟩ ∧
      (getProduct (toString 1700000000000)
        (createProduct 1700000000000 penBody Store.empty).2).1 = ⟨200, .product rec⟩ ∧
      rec.map Prod.fst = ["id", "title", "description", "code", "price", "status", "stock",
        "category", "thumbnails"] ∧
      getProp rec "id" = some (.str (toString 1700000000000)) ∧
      getProp rec "status" = some (.bool true) ∧
      (∀ k ∈ requiredFields, getProp rec k = (getProp penBody k).map jsonVal) ∧
      (∀ k ∈ requiredFields, ∀ v, getProp penBody k = some v → jsonVal v = v →
        getProp rec k = some v) ∧
      getProp rec "thumbnails" =
        some (jsonVal (jsOr (getProp penBody "thumbnails") (.arr []))) ∧
      (getProp penBody "thumbnails" = none → getProp rec "thumbnails" = some (.arr [])) ∧
      (∀ v, getProp penBody "thumbnails" = some v → truthy v = true →
        getProp rec "thumbnails" = some (jsonVal v)) ∧
      (∀ v, getProp penBody "thumbnails" = some v → truthy v = false →
        getProp rec "thumbnails" = some (.arr [])) :=
  ⟨rfl, createProduct_then_get 1700000000000 penBody Store.empty rfl
    (by intro p hp; simp [Store.empty, Store.products, readFile] at hp)⟩

/-! ## Uniqueness of ids -/

theorem map_modifyFirst_of_pred {α β : Type} (p : α → Bool) (f : α → α) (g : α → β)
    (hg : ∀ x, p x = true → g (f x) = g x) (l : List α) :
    (modifyFirst p f l).map g = l.map g := by
  induction l with
  | nil => rfl
  | cons a t ih =>
    by_cases ha : p a = true
    · simp [modifyFirst, ha, hg a ha]
    · simp [modifyFirst, ha, ih]

theorem map_set_same {α β : Type} (g : α → β) (l : List α) (i : Nat) (x y : α)
    (h : l[i]? = some x) (hg : g y = g x) : (l.set i y).map g = l.map g := by
  induction l generalizing i with
  | nil => simp
  | cons a t ih =>
    cases i with
    | zero =>
      simp at h
      subst h
      simp [hg]
    | succ i =>
      simp at h
      simp [ih i h]

theorem literal_keys_sublist (props : List (String × Option JVal)) :
    ((literal props).map Prod.fst).Sublist (props.map Prod.fst) := by
  induction props with
  | nil => simp [literal]
  | cons a t ih =>
    obtain ⟨k, v⟩ := a
    cases v with
    | none =>
      simp only [literal, List.filterMap_cons, Option.map_none', List.map_cons]
      exact List.Sublist.cons _ ih
    | some v =>
      simp only [literal, List.filterMap_cons, Option.map_some', List.map_cons]
      exact List.Sublist.cons₂ _ ih

theorem not_mem_keys_deleteProp (o : Obj) (d : String) :
    d ∉ (deleteProp o d).map Prod.fst := by
  intro h
  obtain ⟨kv, hkv, hk⟩ := List.mem_map.mp h
  have := (List.mem_filter.mp hkv).2
  simp [hk] at this

theorem getProp_spread_of_not_mem (a b : Obj) (k : String) (ha : WF a)
    (hk : k ∉ b.map Prod.fst) : getProp (spread a b) k = getProp a k := by
  unfold spread
  rw [getProp_foldl_setProp, List.reverse_append, getProp_append, getProp_reverse a k ha]
  have hb : getProp b.reverse k = none := by
    apply getProp_eq_none_of_not_mem
    simpa using hk
  rw [hb]
  cases getProp a k <;> simp [getProp]

theorem newProduct_WF (now : Nat) (body : Obj) : WF (newProduct now body) :=
  List.Nodup.sublist (literal_keys_sublist _) (by simp)

theorem createProduct_failed (now : Nat) (body : Obj) (s : Store)
    (h : ¬ (createProduct now body s).1.status = 201) : createProduct now body s =
      (⟨400, .error "All fields except thumbnails are required"⟩, s) := by
  simp only [createProduct] at h ⊢
  split
  · rfl
  · rename_i hv
    rw [if_neg hv] at h
    exact absurd rfl h

theorem products_of_productsFile (s s' : Store) (h : s'.productsFile = s.productsFile) :
    s'.products = s.products := by
  simp only [Store.products, h]

theorem carts_of_cartsFile (s s' : Store) (h : s'.cartsFile = s.cartsFile) :
    s'.carts = s.carts := by
  simp only [Store.carts, h]

theorem deleteProduct_cartsFile (pid : String) (s : Store) :
    (deleteProduct pid s).2.cartsFile = s.cartsFile := by
  simp only [deleteProduct]
  split <;> rfl

theorem deleteProduct_sublist (pid : String) (s : Store) :
    (deleteProduct pid s).2.products.Sublist s.products := by
  simp only [deleteProduct]
  split
  · exact List.Sublist.refl _
  · have hsub : ((readFile jsonObj s.productsFile).filter
        (fun p => !hasId pid p)).Sublist s.products := List.filter_sublist _
    rw [products_write, map_jsonObj_sublist s _ hsub]
    exact hsub

theorem handle_ids_distinct (op : Op) (s : Store)
    (hwf : ∀ p ∈ s.products, WF p) (hP : ProductIdsDistinct s) (hC : CartIdsDistinct s)
    (hfresh : FreshClock op s) :
    ProductIdsDistinct (handle op s).2 ∧ CartIdsDistinct (handle op s).2 ∧
      ∀ p ∈ (handle op s).2.products, WF p := by
  cases op with
  | listProducts limit =>
    simp only [handle, listProducts_store]
    exact ⟨hP, hC, hwf⟩
  | getProduct pid =>
    have : (getProduct pid s).2 = s := by
      simp only [getProduct]
      split <;> rfl
    simp only [handle, this]
    exact ⟨hP, hC, hwf⟩
  | getCart cid =>
    have : (getCart cid s).2 = s := by
      simp only [getCart]
      split <;> rfl
    simp only [handle, this]
    exact ⟨hP, hC, hwf⟩
  | createProduct now body =>
    simp only [handle]
    by_cases hok : (createProduct now body s).1.status = 201
    · have hprod := createProduct_products_ok now body s hok
      have hcarts : (createProduct now body s).2.carts = s.carts := by
        rw [(createProduct_ok now body s hok).1]
        rfl
      have hid : getProp (jsonObj (newProduct now body)) "id" = some (.str (toString now)) := by
        rw [getProp_jsonObj_str]
        simp [newProduct, literal, getProp]
      refine ⟨?_, ?_, ?_⟩
      · unfold ProductIdsDistinct
        rw [hprod, List.map_append, List.nodup_append]
        refine ⟨hP, by simp, ?_⟩
        intro a ha hb
        simp at hb
        subst hb
        obtain ⟨p, hp, hpid⟩ := List.mem_map.mp ha
        exact hfresh p hp (by rw [hpid, hid])
      · unfold CartIdsDistinct
        rw [hcarts]
        exact hC
      · intro p hp
        rw [hprod] at hp
        rcases List.mem_append.mp hp with hp | hp
        · exact hwf p hp
        · simp at hp
          subst hp
          unfold WF
          rw [keys_jsonObj]
          exact newProduct_WF now body
    · rw [createProduct_failed now body s hok]
      exact ⟨hP, hC, hwf⟩
  | updateProduct pid body =>
    simp only [handle]
    cases hi : findIndex (hasId pid) s.products with
    | none =>
      have : (updateProduct pid body s).2 = s := by
        unfold Store.products at hi
        simp only [updateProduct, hi]
      rw [this]
      exact ⟨hP, hC, hwf⟩
    | some i =>
      obtain ⟨old, h1, _, _⟩ := findIndex_spec (hasId pid) s.products i hi
      have hwo : WF old := hwf old (List.getElem?_mem h1)
      have hso : jsonObj old = old := jsonObj_of_mem_products s old (List.getElem?_mem h1)
      have hid : getProp (jsonObj (spread old (deleteProp body "id"))) "id" =
          getProp old "id" := by
        rw [getProp_jsonObj,
          getProp_spread_of_not_mem old _ "id" hwo (not_mem_keys_deleteProp body "id"),
          ← getProp_jsonObj, hso]
      have hprod := updateProduct_products pid body s i old hi h1
      have hcarts : (updateProduct pid body s).2.carts = s.carts := by
        rw [updateProduct_ok pid body s i old hi h1]
        rfl
      refine ⟨?_, ?_, ?_⟩
      · unfold ProductIdsDistinct
        rw [hprod, map_set_same (fun p => getProp p "id") s.products i old _ h1 hid]
        exact hP
      · unfold CartIdsDistinct
        rw [hcarts]
        exact hC
      · intro p hp
        rw [hprod] at hp
        rcases List.mem_or_eq_of_mem_set hp with hp | hp
        · exact hwf p hp
        · subst hp
          unfold WF
          rw [keys_jsonObj]
          exact WF_spread _ _
  | deleteProduct pid =>
    simp only [handle]
    have hsub := deleteProduct_sublist pid s
    refine ⟨?_, ?_, ?_⟩
    · exact List.Nodup.sublist (List.Sublist.map _ hsub) hP
    · unfold CartIdsDistinct
      rw [carts_of_cartsFile s _ (deleteProduct_cartsFile pid s)]
      exact hC
    · intro p hp
      exact hwf p (hsub.subset hp)
  | createCart now =>
    simp only [handle]
    have hprod : (createCart now s).2.products = s.products := rfl
    refine ⟨hP, ?_, hwf⟩
    unfold CartIdsDistinct
    rw [createCart_carts, List.map_append, List.nodup_append]
    refine ⟨hC, by simp, ?_⟩
    intro a ha hb
    simp at hb
    subst hb
    obtain ⟨c, hc, hcid⟩ := List.mem_map.mp ha
    exact hfresh c hc hcid
  | attachProduct cid pid =>
    simp only [handle]
    have hprod : (attachProduct cid pid s).2.products = s.products :=
      products_of_productsFile s _ (attachProduct_productsFile cid pid s)
    refine ⟨by unfold ProductIdsDistinct; rw [hprod]; exact hP, ?_,
      by rw [hprod]; exact hwf⟩
    by_cases hc : ∃ c ∈ s.carts, c.id = cid
    · by_cases hp : ∃ p ∈ s.products, getProp p "id" = some (.str pid)
      · obtain ⟨cart, hcart⟩ := find?_cart_isSome cid s.carts hc
        obtain ⟨prod, hpr⟩ := find?_product_isSome pid s.products hp
        have hid : cart.id = cid := by simpa using List.find?_some hcart
        unfold CartIdsDistinct
        rw [attachProduct_ok cid pid s cart prod hcart hpr, carts_write,
          map_modifyFirst_of_pred]
        · exact hC
        · intro x hx
          simp at hx
          simp [hx, hid]
      · rw [attachProduct_product_missing cid pid s hc hp]
        exact hC
    · rw [attachProduct_cart_missing cid pid s hc]
      exact hC

theorem run_ids_distinct (ops : List Op) (s : Store)
    (hwf : ∀ p ∈ s.products, WF p) (hP : ProductIdsDistinct s) (hC : CartIdsDistinct s)
    (hfresh : FreshRun ops s) :
    ProductIdsDistinct (run ops s) ∧ CartIdsDistinct (run ops s) := by
  induction ops generalizing s with
  | nil => exact ⟨hP, hC⟩
  | cons op rest ih =>
    obtain ⟨h1, h2, h3⟩ := handle_ids_distinct op s hwf hP hC hfresh.1
    simp only [run, List.foldl_cons]
    exact ih _ h3 h1 h2 hfresh.2

/-- C10 fails as stated: two products created at the same clock value get the same id, and
so do two carts; the states are reachable from the empty files. -/
theorem ids_distinct_counterexample :
    ¬ ProductIdsDistinct (run [.createProduct 1700000000000 pencilBody,
        .createProduct 1700000000000 penBody] Store.empty) ∧
    ¬ CartIdsDistinct (run [.createCart 1700000000000, .createCart 1700000000000]
        Store.empty) := by
  constructor
  · intro h
    have h' : ([some (JVal.str "1700000000000"), some (JVal.str "1700000000000")] :
        List (Option JVal)).Nodup := h
    simp at h'
  · intro h
    have h' : (["1700000000000", "1700000000000"] : List String).Nodup := h
    simp at h'

/-- C10, amended: pairwise distinct product ids and pairwise distinct cart ids (and distinct
property names inside each record) are preserved by every request, provided that a create
request runs at a clock value whose decimal string is not already an id of its collection;
update, delete and attach preserve them unconditionally. Hence they hold after every run
from the empty files all of whose create requests meet that condition. -/
theorem ids_distinct_preserved :
    (∀ (op : Op) (s : Store), (∀ p ∈ s.products, WF p) → ProductIdsDistinct s →
      CartIdsDistinct s → FreshClock op s →
      ProductIdsDistinct (handle op s).2 ∧ CartIdsDistinct (handle op s).2 ∧
        ∀ p ∈ (handle op s).2.products, WF p) ∧
    (∀ ops : List Op, FreshRun ops Store.empty →
      ProductIdsDistinct (run ops Store.empty) ∧ CartIdsDistinct (run ops Store.empty)) := by
  refine ⟨handle_ids_distinct, ?_⟩
  intro ops h
  exact run_ids_distinct ops Store.empty
    (by intro p hp; simp [Store.empty, Store.products, readFile] at hp)
    (by simp [ProductIdsDistinct, Store.empty, Store.products, readFile])
    (by simp [CartIdsDistinct, Store.empty, Store.carts, readFile]) h

/-- C10 amended, at a concrete run: two products and two carts created at four different
clock values, one update, one attach and one delete. -/
theorem ids_distinct_preserved_witness :
    FreshRun [.createProduct 1700000000000 pencilBody, .createProduct 1700000000001 penBody,
      .createCart 1700000000002, .createCart 1700000000003,
      .updateProduct "1700000000000" [("price", fifty), ("id", .str "1700000000001")],
      .attachProduct "1700000000002" "1700000000001",
      .deleteProduct "1700000000000"] Store.empty ∧
    ProductIdsDistinct (run [.createProduct 1700000000000 pencilBody,
      .createProduct 1700000000001 penBody,
      .createCart 1700000000002, .createCart 1700000000003,
      .updateProduct "1700000000000" [("price", fifty), ("id", .str "1700000000001")],
      .attachProduct "1700000000002" "1700000000001",
      .deleteProduct "1700000000000"] Store.empty) ∧
    CartIdsDistinct (run [.createProduct 1700000000000 pencilBody,
      .createProduct 1700000000001 penBody,
      .createCart 1700000000002, .createCart 1700000000003,
      .updateProduct "1700000000000" [("price", fifty), ("id", .str "1700000000001")],
      .attachProduct "1700000000002" "1700000000001",
      .deleteProduct "1700000000000"] Store.empty) :=
  have hfresh : FreshRun [.createProduct 1700000000000 pencilBody,
      .createProduct 1700000000001 penBody,
      .createCart 1700000000002, .createCart 1700000000003,
      .updateProduct "1700000000000" [("price", fifty), ("id", .str "1700000000001")],
      .attachProduct "1700000000002" "1700000000001",
      .deleteProduct "1700000000000"] Store.empty := by
    refine ⟨?_, ?_, ?_, ?_, trivial, trivial, trivial, trivial⟩
    · intro p hp
      simp [Store.empty, Store.products, readFile] at hp
    · intro p hp
      have hp' : p ∈ [[("id", JVal.str "1700000000000"), ("title", .str "Pencil"),
        ("description", .str "HB pencil"), ("code", .str "PC1"), ("price", half),
        ("status", .bool true), ("stock", twenty), ("category", .str "office"),
        ("thumbnails", .arr [])]] := hp
      simp at hp'
      subst hp'
      simp [getProp]
      decide
    · intro c hc
      have hc' : c ∈ ([] : List Cart) := hc
      simp at hc'
    · intro c hc
      have hc' : c ∈ [({ id := "1700000000002", products := [] } : Cart)] := hc
      simp at hc'
      subst hc'
      decide
  ⟨hfresh, ids_distinct_preserved.2 _ hfresh⟩

/-! ## Validation on create -/

theorem truthyOpt_eq_false (v : Option JVal) :
    truthyOpt v = false ↔
      v = none ∨ v = some .null ∨ v = some (.bool false) ∨
      (∃ negative, v = some (.num (.finite negative 0 0))) ∨ v = some (.str "") := by
  cases v with
  | none => simp [truthyOpt]
  | some x =>
    cases x with
    | null => simp [truthyOpt, truthy]
    | bool b => cases b <;> simp [truthyOpt, truthy]
    | num n =>
      cases n with
      | finite negative exponent fraction =>
        simp only [truthyOpt, truthy, Bool.not_eq_false', Bool.and_eq_true, beq_iff_eq,
          reduceCtorEq, Option.some.injEq, JVal.num.injEq, JNum.finite.injEq, false_or,
          or_false]
        constructor
        · rintro ⟨rfl, rfl⟩
          exact ⟨negative, rfl, rfl, rfl⟩
        · rintro ⟨_, _, h1, h2⟩
          exact ⟨h1, h2⟩
      | infinite negative => simp [truthyOpt, truthy]
    | str t => simp [truthyOpt, truthy]
    | arr items => simp [truthyOpt, truthy]
    | obj members => simp [truthyOpt, truthy]

theorem createProduct_guard (body : Obj) :
    (!truthyOpt (getProp body "title") || !truthyOpt (getProp body "description")
      || !truthyOpt (getProp body "code") || !truthyOpt (getProp body "price")
      || !truthyOpt (getProp body "stock") || !truthyOpt (getProp body "category")) = true ↔
    ∃ k ∈ requiredFields, truthyOpt (getProp body k) = false := by
  simp [requiredFields, or_assoc]

theorem createProduct_invalid (now : Nat) (body : Obj) (s : Store)
    (h : ∃ k ∈ requiredFields, truthyOpt (getProp body k) = false) :
    createProduct now body s =
      (⟨400, .error "All fields except thumbnails are required"⟩, s) := by
  simp only [createProduct, if_pos ((createProduct_guard body).mpr h)]

theorem createProduct_valid (now : Nat) (body : Obj) (s : Store)
    (h : ¬ ∃ k ∈ requiredFields, truthyOpt (getProp body k) = false) :
    ∃ rec : Obj, getProp rec "status" = some (.bool true) ∧
      getProp rec "id" = some (.str (toString now)) ∧
      (createProduct now body s).1 = ⟨201, .product rec⟩ ∧
      (createProduct now body s).2.products = s.products ++ [rec] ∧
      (createProduct now body s).2.cartsFile = s.cartsFile := by
  have hv := mt (createProduct_guard body).mp h
  have hs : (createProduct now body s).1.status = 201 := by
    simp only [createProduct, if_neg hv]
  obtain ⟨heq, _, _, _, _, _, _, _, _, _, _, _, _, hnew⟩ := createProduct_ok now body s hs
  refine ⟨jsonObj (newProduct now body), ?_, ?_, ?_, createProduct_products_ok now body s hs, ?_⟩
  · rw [getProp_jsonObj, hnew]
    simp [getProp, jsonVal]
  · rw [getProp_jsonObj_str, hnew]
    simp [getProp]
  · rw [heq]
  · rw [heq]

/-- C11: `createProduct` answers 400 exactly when one of `title`, `description`, `code`,
`price`, `stock`, `category` is falsy in the body, that is absent, `null`, `false`, a zero
number (`0` or `-0`) or the empty string. Otherwise it answers 201 with a record whose
`status` is `true`, and the stored collection is the old one, unchanged, followed by that
one record; the cart file is untouched. `thumbnails` plays no part in the test. -/
theorem createProduct_validation (now : Nat) (body : Obj) (s : Store) :
    ((createProduct now body s).1.status = 400 ↔
      ∃ k ∈ requiredFields, truthyOpt (getProp body k) = false) ∧
    ((createProduct now body s).1.status = 400 ∨ (createProduct now body s).1.status = 201) ∧
    ((∀ k ∈ requiredFields, truthyOpt (getProp body k) = true) →
      ∃ rec : Obj,
        (createProduct now body s).1 = ⟨201, .product rec⟩ ∧
        getProp rec "status" = some (.bool true) ∧
        (createProduct now body s).2.products = s.products ++ [rec] ∧
        (createProduct now body s).2.cartsFile = s.cartsFile) ∧
    (∀ v : Option JVal, truthyOpt v = false ↔
      v = none ∨ v = some .null ∨ v = some (.bool false) ∨
      (∃ negative, v = some (.num (.finite negative 0 0))) ∨ v = some (.str "")) := by
  refine ⟨?_, ?_, ?_, truthyOpt_eq_false⟩
  · by_cases h : ∃ k ∈ requiredFields, truthyOpt (getProp body k) = false
    · rw [createProduct_invalid now body s h]
      simp [h]
    · obtain ⟨rec, _, _, heq, _, _⟩ := createProduct_valid now body s h
      rw [heq]
      simp [h]
  · by_cases h : ∃ k ∈ requiredFields, truthyOpt (getProp body k) = false
    · rw [createProduct_invalid now body s h]
      simp
    · obtain ⟨rec, _, _, heq, _, _⟩ := createProduct_valid now body s h
      rw [heq]
      simp
  · intro hall
    have h : ¬ ∃ k ∈ requiredFields, truthyOpt (getProp body k) = false := by
      rintro ⟨k, hk, hf⟩
      rw [hall k hk] at hf
      exact Bool.noConfusion hf
    obtain ⟨rec, hst, _, heq, hprod, hcarts⟩ := createProduct_valid now body s h
    exact ⟨rec, heq, hst, hprod, hcarts⟩

/-- C11, at concrete inputs: the body `{ title: "x" }` is refused, and the pen, sent without
`thumbnails`, is appended to the one-product collection of `sampleStore`. -/
theorem createProduct_validation_witness :
    (createProduct 7 [("title", .str "x")] sampleStore).1.status = 400 ∧
    ∃ rec : Obj,
      (createProduct 7 penBody sampleStore).1 = ⟨201, .product rec⟩ ∧
      getProp rec "status" = some (.bool true) ∧
      (createProduct 7 penBody sampleStore).2.products = sampleStore.products ++ [rec] ∧
      (createProduct 7 penBody sampleStore).2.cartsFile = sampleStore.cartsFile :=
  ⟨(createProduct_validation 7 [("title", .str "x")] sampleStore).1.mpr
      ⟨"description", by decide, rfl⟩,
   (createProduct_validation 7 penBody sampleStore).2.2.1 (by
      intro k hk
      simp [requiredFields] at hk
      rcases hk with rfl | rfl | rfl | rfl | rfl | rfl <;> rfl)⟩

/-! ## Deleting a product -/

theorem deleteProduct_missing (pid : String) (s : Store)
    (h : ¬ ∃ p ∈ s.products, getProp p "id" = some (.str pid)) :
    deleteProduct pid s = (⟨404, .error "Product not found"⟩, s) := by
  have hall : ∀ p ∈ readFile jsonObj s.productsFile, (!hasId pid p) = true := by
    intro p hp
    cases hh : hasId pid p with
    | false => rfl
    | true => exact absurd ⟨p, hp, (hasId_iff pid p).mp hh⟩ h
  have hfil : (readFile jsonObj s.productsFile).filter (fun p => !hasId pid p) = readFile jsonObj s.productsFile :=
    List.filter_eq_self.mpr hall
  simp only [deleteProduct, hfil, if_true]

theorem deleteProduct_present (pid : String) (s : Store)
    (h : ∃ p ∈ s.products, getProp p "id" = some (.str pid)) :
    deleteProduct pid s =
      (⟨204, .empty⟩,
       { s with productsFile := writeFile (s.products.filter (fun p => !hasId pid p)) }) := by
  have hne : ¬ (readFile jsonObj s.productsFile).length =
      ((readFile jsonObj s.productsFile).filter (fun p => !hasId pid p)).length := by
    intro hlen
    have hfil := (List.filter_sublist (p := fun p => !hasId pid p)
      (readFile jsonObj s.productsFile)).eq_of_length hlen.symm
    obtain ⟨p, hp, hid⟩ := h
    have := List.filter_eq_self.mp hfil p hp
    simp [(hasId_iff pid p).mpr hid] at this
  simp only [deleteProduct, if_neg hne, Store.products]

theorem deleteProduct_products (pid : String) (s : Store)
    (h : ∃ p ∈ s.products, getProp p "id" = some (.str pid)) :
    (deleteProduct pid s).2.products = s.products.filter (fun p => !hasId pid p) := by
  rw [deleteProduct_present pid s h, products_write,
    map_jsonObj_sublist s _ (List.filter_sublist _)]

theorem filter_hasId_eq_eraseIdx (pid : String) (ps : List Obj) (i : Nat)
    (hd : (ps.map (fun p => getProp p "id")).Nodup)
    (hi : findIndex (hasId pid) ps = some i) :
    ps.filter (fun p => !hasId pid p) = ps.eraseIdx i := by
  induction ps generalizing i with
  | nil => simp [findIndex] at hi
  | cons a t ih =>
    have hdt : (t.map (fun p => getProp p "id")).Nodup := (List.nodup_cons.mp hd).2
    by_cases ha : hasId pid a = true
    · simp only [findIndex, if_pos ha, Option.some.injEq] at hi
      subst hi
      have hrest : ∀ p ∈ t, (!hasId pid p) = true := by
        intro p hp
        cases hh : hasId pid p with
        | false => rfl
        | true =>
          have h1 := (hasId_iff pid a).mp ha
          have h2 := (hasId_iff pid p).mp hh
          exact absurd (List.mem_map.mpr ⟨p, hp, h2.trans h1.symm⟩) (List.nodup_cons.mp hd).1
      simp only [List.filter, ha, Bool.not_true, List.eraseIdx_cons_zero]
      exact List.filter_eq_self.mpr hrest
    · simp only [findIndex, if_neg ha] at hi
      cases hf : findIndex (hasId pid) t with
      | none => simp [hf] at hi
      | some j =>
        simp [hf] at hi
        subst hi
        have hb : (!hasId pid a) = true := by simpa using ha
        simp only [List.filter, hb, List.eraseIdx_cons_succ]
        exact congrArg (List.cons a) (ih j hdt hf)

theorem getProduct_missing (pid : String) (s : Store)
    (h : ¬ ∃ p ∈ s.products, getProp p "id" = some (.str pid)) :
    (getProduct pid s).1 = ⟨404, .error "Product not found"⟩ := by
  have hnone := find?_product_none pid s.products h
  unfold Store.products at hnone
  simp only [getProduct, hnone]

theorem not_hasId_of_mem_filter (pid : String) (ps : List Obj) (p : Obj)
    (hp : p ∈ ps.filter (fun q => !hasId pid q)) : getProp p "id" ≠ some (.str pid) := by
  intro hid
  have := (List.mem_filter.mp hp).2
  simp [(hasId_iff pid p).mpr hid] at this

/-- C12: `deleteProduct` answers 404 exactly when no stored product has id `pid`. Otherwise
it answers 204 and the stored collection is the old one without the records of id `pid`
(with pairwise distinct ids: without the one record at the position of that id), the
remaining records being kept in their order; the cart file is untouched, and `getProduct`
with that id then answers 404. -/
theorem deleteProduct_spec (pid : String) (s : Store) :
    ((deleteProduct pid s).1.status = 404 ↔
      ¬ ∃ p ∈ s.products, getProp p "id" = some (.str pid)) ∧
    ((∃ p ∈ s.products, getProp p "id" = some (.str pid)) →
      (deleteProduct pid s).1 = ⟨204, .empty⟩ ∧
      (deleteProduct pid s).2.products = s.products.filter (fun p => !hasId pid p) ∧
      (deleteProduct pid s).2.products.Sublist s.products ∧
      (∀ p ∈ s.products, getProp p "id" ≠ some (.str pid) →
        p ∈ (deleteProduct pid s).2.products) ∧
      (∀ p ∈ (deleteProduct pid s).2.products, getProp p "id" ≠ some (.str pid)) ∧
      (ProductIdsDistinct s → ∃ i, findIndex (hasId pid) s.products = some i ∧
        (deleteProduct pid s).2.products = s.products.eraseIdx i) ∧
      (deleteProduct pid s).2.cartsFile = s.cartsFile ∧
      (getProduct pid (deleteProduct pid s).2).1 = ⟨404, .error "Product not found"⟩) := by
  constructor
  · by_cases h : ∃ p ∈ s.products, getProp p "id" = some (.str pid)
    · rw [deleteProduct_present pid s h]
      simp [h]
    · rw [deleteProduct_missing pid s h]
      simp [h]
  · intro h
    have hprod : (deleteProduct pid s).2.products =
        s.products.filter (fun p => !hasId pid p) := deleteProduct_products pid s h
    refine ⟨by rw [deleteProduct_present pid s h], hprod, ?_, ?_, ?_, ?_,
      by rw [deleteProduct_present pid s h], ?_⟩
    · rw [hprod]
      exact List.filter_sublist _
    · intro p hp hid
      rw [hprod]
      apply List.mem_filter.mpr
      refine ⟨hp, ?_⟩
      cases hh : hasId pid p with
      | false => rfl
      | true => exact absurd ((hasId_iff pid p).mp hh) hid
    · intro p hp
      rw [hprod] at hp
      exact not_hasId_of_mem_filter pid _ p hp
    · intro hd
      obtain ⟨p, hp, hid⟩ := h
      obtain ⟨i, hi⟩ := findIndex_isSome (hasId pid) s.products
        ⟨p, hp, (hasId_iff pid p).mpr hid⟩
      exact ⟨i, hi, by rw [hprod]; exact filter_hasId_eq_eraseIdx pid s.products i hd hi⟩
    · apply getProduct_missing
      rintro ⟨p, hp, hid⟩
      rw [hprod] at hp
      exact not_hasId_of_mem_filter pid _ p hp hid

/-- C12, at a concrete input: product `"3"` of the five products of `fiveProducts`. -/
theorem deleteProduct_spec_witness :
    (deleteProduct "3" fiveProducts).1 = ⟨204, .empty⟩ ∧
    (deleteProduct "3" fiveProducts).2.products =
      [[("id", .str "1")], [("id", .str "2")], [("id", .str "4")], [("id", .str "5")]] ∧
    (getProduct "3" (deleteProduct "3" fiveProducts).2).1 =
      ⟨404, .error "Product not found"⟩ :=
  have h := (deleteProduct_spec "3" fiveProducts).2
    ⟨[("id", .str "3")],
      List.mem_cons_of_mem _ (List.mem_cons_of_mem _ (List.mem_cons_self _ _)), rfl⟩
  ⟨h.1, rfl, h.2.2.2.2.2.2.2⟩

/-- C16: `deleteProduct` leaves the cart file as it was, so every `getCart` answers after
the deletion what it answered before; a cart that holds a line for the deleted product
still returns that line, while `getProduct` for the product now answers 404. -/
theorem deleteProduct_keeps_carts (pid : String) (s : Store) :
    (deleteProduct pid s).2.cartsFile = s.cartsFile ∧
    (deleteProduct pid s).2.carts = s.carts ∧
    (∀ cid, (getCart cid (deleteProduct pid s).2).1 = (getCart cid s).1) ∧
    ((deleteProduct pid s).1.status = 204 →
      (getProduct pid (deleteProduct pid s).2).1 = ⟨404, .error "Product not found"⟩ ∧
      ∀ cid cart line, (getCart cid s).1 = ⟨200, .cart cart⟩ → line ∈ cart.products →
        line.product = pid →
        (getCart cid (deleteProduct pid s).2).1 = ⟨200, .cart cart⟩) := by
  have hfile : (deleteProduct pid s).2.cartsFile = s.cartsFile := by
    simp only [deleteProduct]
    split <;> rfl
  have hget : ∀ cid, (getCart cid (deleteProduct pid s).2).1 = (getCart cid s).1 := by
    intro cid
    simp only [getCart, hfile]
    split <;> rfl
  refine ⟨hfile, by simp only [Store.carts, hfile], hget, ?_⟩
  intro hok
  constructor
  · by_cases h : ∃ p ∈ s.products, getProp p "id" = some (.str pid)
    · apply getProduct_missing
      rintro ⟨p, hp, hid⟩
      rw [deleteProduct_products pid s h] at hp
      exact not_hasId_of_mem_filter pid _ p hp hid
    · rw [deleteProduct_missing pid s h] at hok
      simp at hok
  · intro cid cart line hc _ _
    rw [hget cid, hc]

/-- C16, at a concrete input: product `"2"` of `sampleStore` is deleted; cart `"1"` still
returns its line for `"2"`. -/
theorem deleteProduct_keeps_carts_witness :
    (deleteProduct "2" sampleStore).1.status = 204 ∧
    (getProduct "2" (deleteProduct "2" sampleStore).2).1 =
      ⟨404, .error "Product not found"⟩ ∧
    (getCart "1" (deleteProduct "2" sampleStore).2).1 =
      ⟨200, .cart { id := "1", products := [{ product := "2", quantity := 4 }] }⟩ :=
  have h := (deleteProduct_keeps_carts "2" sampleStore).2.2.2 rfl
  ⟨rfl, h.1, h.2 "1" { id := "1", products := [{ product := "2", quantity := 4 }] }
    { product := "2", quantity := 4 } rfl (by decide) rfl⟩

/-! ## Quantities only grow -/

theorem getElem?_modifyFirst {α : Type} (p : α → Bool) (f : α → α) (l : List α) (j : Nat)
    (x : α) (h : l[j]? = some x) :
    (modifyFirst p f l)[j]? = some x ∨
      (l.find? p = some x ∧ (modifyFirst p f l)[j]? = some (f x)) := by
  induction l generalizing j with
  | nil => simp at h
  | cons a t ih =>
    by_cases ha : p a = true
    · cases j with
      | zero =>
        simp at h
        subst h
        exact Or.inr ⟨by simp [List.find?, ha], by simp [modifyFirst, ha]⟩
      | succ j =>
        simp at h
        exact Or.inl (by simp [modifyFirst, ha, h])
    · cases j with
      | zero =>
        simp at h
        subst h
        exact Or.inl (by simp [modifyFirst, ha])
      | succ j =>
        simp at h
        rcases ih j h with h1 | ⟨h1, h2⟩
        · exact Or.inl (by simp [modifyFirst, ha, h1])
        · exact Or.inr ⟨by simp [List.find?, ha, h1], by simp [modifyFirst, ha, h2]⟩

theorem addLine_grows (pid : String) (lines : List CartLine) (j : Nat) (l : CartLine)
    (h : lines[j]? = some l) :
    ∃ l', (addLine pid lines)[j]? = some l' ∧ l'.product = l.product ∧
      l.quantity ≤ l'.quantity := by
  unfold addLine
  split
  · rcases getElem?_modifyFirst (fun l : CartLine => l.product == pid)
      (fun l => { l with quantity := jsIncrement l.quantity }) lines j l h with h1 | ⟨_, h1⟩
    · exact ⟨l, h1, rfl, Nat.le_refl _⟩
    · exact ⟨_, h1, rfl, le_jsIncrement _⟩
  · refine ⟨l, ?_, rfl, Nat.le_refl _⟩
    have hj : j < lines.length := (List.getElem?_eq_some.mp h).1
    rw [List.getElem?_append_left hj]
    exact h

theorem addLine_positive (pid : String) (lines : List CartLine)
    (h : ∀ l ∈ lines, 1 ≤ l.quantity) : ∀ l ∈ addLine pid lines, 1 ≤ l.quantity := by
  intro l hl
  unfold addLine at hl
  split at hl
  · rcases mem_modifyFirst _ _ _ _ hl with hl | ⟨x, hfind, hx⟩
    · exact h l hl
    · subst hx
      exact Nat.le_trans (h x (List.mem_of_find?_eq_some hfind)) (le_jsIncrement _)
  · rcases List.mem_append.mp hl with hl | hl
    · exact h l hl
    · simp at hl
      subst hl
      exact Nat.le_refl _

theorem handle_carts_grow (op : Op) (s : Store) (i : Nat) (c : Cart)
    (h : s.carts[i]? = some c) :
    ∃ c' : Cart, (handle op s).2.carts[i]? = some c' ∧ c'.id = c.id ∧
      ∀ (j : Nat) (l : CartLine), c.products[j]? = some l →
        ∃ l' : CartLine, c'.products[j]? = some l' ∧ l'.product = l.product ∧
          l.quantity ≤ l'.quantity := by
  have hsame : ∀ s' : Store, s'.cartsFile = s.cartsFile →
      ∃ c' : Cart, s'.carts[i]? = some c' ∧ c'.id = c.id ∧
        ∀ (j : Nat) (l : CartLine), c.products[j]? = some l →
          ∃ l' : CartLine, c'.products[j]? = some l' ∧ l'.product = l.product ∧
            l.quantity ≤ l'.quantity := by
    intro s' hs'
    refine ⟨c, ?_, rfl, fun j l hl => ⟨l, hl, rfl, Nat.le_refl _⟩⟩
    simpa only [Store.carts, hs'] using h
  cases op with
  | listProducts limit => exact hsame _ (by simp only [handle, listProducts_store])
  | getProduct pid =>
    apply hsame
    simp only [handle, getProduct]
    split <;> rfl
  | createProduct now body =>
    apply hsame
    simp only [handle, createProduct]
    split <;> rfl
  | updateProduct pid body =>
    apply hsame
    simp only [handle, updateProduct]
    split <;> rfl
  | deleteProduct pid =>
    apply hsame
    simp only [handle, deleteProduct]
    split <;> rfl
  | getCart cid =>
    apply hsame
    simp only [handle, getCart]
    split <;> rfl
  | createCart now =>
    refine ⟨c, ?_, rfl, fun j l hl => ⟨l, hl, rfl, Nat.le_refl _⟩⟩
    have hi : i < s.carts.length := (List.getElem?_eq_some.mp h).1
    simp only [handle]
    rw [createCart_carts, List.getElem?_append_left hi]
    exact h
  | attachProduct cid pid =>
    cases hc : s.carts.find? (fun c => c.id == cid) with
    | none =>
      apply hsame
      unfold Store.carts at hc
      simp only [handle, attachProduct, hc]
    | some cart =>
      cases hp : s.products.find? (hasId pid) with
      | none =>
        apply hsame
        unfold Store.carts at hc
        unfold Store.products at hp
        simp only [handle, attachProduct, hc, hp]
      | some prod =>
        simp only [handle]
        rw [attachProduct_ok cid pid s cart prod hc hp, carts_write]
        rcases getElem?_modifyFirst (fun c : Cart => c.id == cid)
          (fun _ => { cart with products := addLine pid cart.products }) s.carts i c h
          with h1 | ⟨h1, h2⟩
        · exact ⟨c, h1, rfl, fun j l hl => ⟨l, hl, rfl, Nat.le_refl _⟩⟩
        · have hcc : cart = c := Option.some.inj (hc.symm.trans h1)
          subst hcc
          exact ⟨_, h2, rfl, fun j l hl => addLine_grows pid cart.products j l hl⟩

theorem handle_quantities_positive (op : Op) (s : Store)
    (h : ∀ c ∈ s.carts, ∀ l ∈ c.products, 1 ≤ l.quantity) :
    ∀ c ∈ (handle op s).2.carts, ∀ l ∈ c.products, 1 ≤ l.quantity := by
  have hsame : ∀ s' : Store, s'.cartsFile = s.cartsFile →
      ∀ c ∈ s'.carts, ∀ l ∈ c.products, 1 ≤ l.quantity := by
    intro s' hs' c hc
    have hc' : c ∈ s.carts := by simpa only [Store.carts, hs'] using hc
    exact h c hc'
  cases op with
  | listProducts limit => exact hsame _ (by simp only [handle, listProducts_store])
  | getProduct pid =>
    apply hsame
    simp only [handle, getProduct]
    split <;> rfl
  | createProduct now body =>
    apply hsame
    simp only [handle, createProduct]
    split <;> rfl
  | updateProduct pid body =>
    apply hsame
    simp only [handle, updateProduct]
    split <;> rfl
  | deleteProduct pid =>
    apply hsame
    simp only [handle, deleteProduct]
    split <;> rfl
  | getCart cid =>
    apply hsame
    simp only [handle, getCart]
    split <;> rfl
  | createCart now =>
    intro c hc
    simp only [handle] at hc
    rw [createCart_carts] at hc
    have hc' : c ∈ s.carts ++ [({ id := toString now, products := [] } : Cart)] := hc
    rcases List.mem_append.mp hc' with hc' | hc'
    · exact h c hc'
    · simp at hc'
      subst hc'
      simp
  | attachProduct cid pid =>
    cases hc : s.carts.find? (fun c => c.id == cid) with
    | none =>
      apply hsame
      unfold Store.carts at hc
      simp only [handle, attachProduct, hc]
    | some cart =>
      cases hp : s.products.find? (hasId pid) with
      | none =>
        apply hsame
        unfold Store.carts at hc
        unfold Store.products at hp
        simp only [handle, attachProduct, hc, hp]
      | some prod =>
        simp only [handle]
        rw [attachProduct_ok cid pid s cart prod hc hp, carts_write]
        intro c hcm
        have hcm' : c ∈ modifyFirst (fun c : Cart => c.id == cid)
          (fun _ => { cart with products := addLine pid cart.products }) s.carts := hcm
        rcases mem_modifyFirst _ _ _ _ hcm' with hcm' | ⟨x, _, hx⟩
        · exact h c hcm'
        · subst hx
          exact addLine_positive pid cart.products (h cart (List.mem_of_find?_eq_some hc))

theorem run_quantities_positive (ops : List Op) (s : Store)
    (h : ∀ c ∈ s.carts, ∀ l ∈ c.products, 1 ≤ l.quantity) :
    ∀ c ∈ (run ops s).carts, ∀ l ∈ c.products, 1 ≤ l.quantity := by
  induction ops generalizing s with
  | nil => exact h
  | cons op rest ih =>
    simp only [run, List.foldl_cons]
    exact ih _ (handle_quantities_positive op s h)

/-- C13: in every state reachable from the empty files every cart line has quantity at
least 1; and whatever the request, the cart at each position of the cart collection stays
at that position with the same id, and each of its lines stays at its position with the
same product and a quantity at least as large as before: no request removes a line or
lowers a quantity. -/
theorem quantities_monotone :
    (∀ s, Reachable s → ∀ c ∈ s.carts, ∀ l ∈ c.products, 1 ≤ l.quantity) ∧
    (∀ (op : Op) (s : Store) (i : Nat) (c : Cart), s.carts[i]? = some c →
      ∃ c' : Cart, (handle op s).2.carts[i]? = some c' ∧ c'.id = c.id ∧
        ∀ (j : Nat) (l : CartLine), c.products[j]? = some l →
          ∃ l' : CartLine, c'.products[j]? = some l' ∧ l'.product = l.product ∧
            l.quantity ≤ l'.quantity) := by
  constructor
  · rintro s ⟨ops, rfl⟩
    exact run_quantities_positive ops Store.empty
      (by intro c hc; simp [Store.empty, Store.carts, readFile] at hc)
  · exact handle_carts_grow

/-- C13, at a concrete input: the line of cart `"1"` of `sampleStore` goes from quantity 4
to quantity 5 when product `"2"` is attached again. -/
theorem quantities_monotone_witness :
    (attachProduct "1" "2" sampleStore).2.carts =
      [{ id := "1", products := [{ product := "2", quantity := 5 }] }] ∧
    ∃ c' : Cart, (handle (.attachProduct "1" "2") sampleStore).2.carts[0]? = some c' ∧
      c'.id = "1" ∧
      ∀ (j : Nat) (l : CartLine), ([{ product := "2", quantity := 4 }] : List CartLine)[j]? = some l →
        ∃ l' : CartLine, c'.products[j]? = some l' ∧ l'.product = l.product ∧
          l.quantity ≤ l'.quantity :=
  ⟨rfl, quantities_monotone.2 (.attachProduct "1" "2") sampleStore 0
    { id := "1", products := [{ product := "2", quantity := 4 }] } rfl⟩

/-! ## What a successful attach leaves alone -/

theorem attachProduct_success (cid pid : String) (s : Store)
    (h : (attachProduct cid pid s).1.status = 200) :
    ∃ (cart : Cart) (prod : Obj), s.carts.find? (fun c => c.id == cid) = some cart ∧
      s.products.find? (hasId pid) = some prod := by
  by_cases hc : ∃ c ∈ s.carts, c.id = cid
  · by_cases hp : ∃ p ∈ s.products, getProp p "id" = some (.str pid)
    · obtain ⟨cart, hcart⟩ := find?_cart_isSome cid s.carts hc
      obtain ⟨prod, hprod⟩ := find?_product_isSome pid s.products hp
      exact ⟨cart, prod, hcart, hprod⟩
    · rw [attachProduct_product_missing cid pid s hc hp] at h
      simp at h
  · rw [attachProduct_cart_missing cid pid s hc] at h
    simp at h

theorem attachProduct_set (cid pid : String) (s : Store) (cart : Cart) (prod : Obj)
    (hc : s.carts.find? (fun c => c.id == cid) = some cart)
    (hp : s.products.find? (hasId pid) = some prod) :
    ∃ i : Nat, s.carts[i]? = some cart ∧
      (∀ j, j < i → ∀ c : Cart, s.carts[j]? = some c → c.id ≠ cid) ∧
      (attachProduct cid pid s).2.carts =
        s.carts.set i { cart with products := addLine pid cart.products } := by
  obtain ⟨i, h1, h2, h3⟩ := modifyFirst_eq_set (fun c : Cart => c.id == cid)
    (fun _ => { cart with products := addLine pid cart.products }) s.carts cart hc
  refine ⟨i, h1, ?_, ?_⟩
  · intro j hj c hcj
    simpa using h2 j hj c hcj
  · rw [attachProduct_ok cid pid s cart prod hc hp, carts_write]
    exact h3

/-- C14: a successful `attachProduct` leaves the product file as it was and rewrites the
cart collection with the target cart (the first with id `cid`) replaced at its position:
the number of carts, their order and their ids are unchanged, every cart at another
position is unchanged, and the target keeps its id. -/
theorem attachProduct_frame (cid pid : String) (s : Store)
    (h : (attachProduct cid pid s).1.status = 200) :
    ∃ (i : Nat) (cart cart' : Cart),
      s.carts[i]? = some cart ∧ cart.id = cid ∧
      (attachProduct cid pid s).1 = ⟨200, .cart cart'⟩ ∧
      cart'.id = cart.id ∧
      (attachProduct cid pid s).2.productsFile = s.productsFile ∧
      (attachProduct cid pid s).2.carts = s.carts.set i cart' ∧
      (attachProduct cid pid s).2.carts.length = s.carts.length ∧
      (attachProduct cid pid s).2.carts.map Cart.id = s.carts.map Cart.id ∧
      (∀ j, j ≠ i → (attachProduct cid pid s).2.carts[j]? = s.carts[j]?) := by
  obtain ⟨cart, prod, hc, hp⟩ := attachProduct_success cid pid s h
  obtain ⟨i, h1, _, h3⟩ := attachProduct_set cid pid s cart prod hc hp
  have hid : cart.id = cid := by simpa using List.find?_some hc
  refine ⟨i, cart, { cart with products := addLine pid cart.products }, h1, hid, ?_, rfl,
    attachProduct_productsFile cid pid s, h3, ?_, ?_, ?_⟩
  · rw [attachProduct_ok cid pid s cart prod hc hp]
  · rw [h3, List.length_set]
  · rw [h3]
    exact map_set_same Cart.id s.carts i cart _ h1 rfl
  · intro j hj
    rw [h3, List.getElem?_set_ne (Ne.symm hj)]

/-- C14, at a concrete input: product `"2"` attached to the second of the three carts of
`threeCarts`. -/
theorem attachProduct_frame_witness :
    (attachProduct "b" "2" threeCarts).2.carts =
      [{ id := "a", products := [{ product := "2", quantity := 1 }] },
       { id := "b", products := [{ product := "2", quantity := 1 }] },
       { id := "c", products := [] }] ∧
    ∃ (i : Nat) (cart cart' : Cart),
      threeCarts.carts[i]? = some cart ∧ cart.id = "b" ∧
      (attachProduct "b" "2" threeCarts).1 = ⟨200, .cart cart'⟩ ∧
      cart'.id = cart.id ∧
      (attachProduct "b" "2" threeCarts).2.productsFile = threeCarts.productsFile ∧
      (attachProduct "b" "2" threeCarts).2.carts = threeCarts.carts.set i cart' ∧
      (attachProduct "b" "2" threeCarts).2.carts.length = threeCarts.carts.length ∧
      (attachProduct "b" "2" threeCarts).2.carts.map Cart.id = threeCarts.carts.map Cart.id ∧
      (∀ j, j ≠ i → (attachProduct "b" "2" threeCarts).2.carts[j]? = threeCarts.carts[j]?) :=
  ⟨rfl, attachProduct_frame "b" "2" threeCarts rfl⟩

/-! ## The message of a refused create -/

theorem startsWith_iff (hay needle : List Char) :
    startsWith hay needle = true ↔ ∃ b, hay = needle ++ b := by
  induction needle generalizing hay with
  | nil => simp [startsWith]
  | cons n ns ih =>
    cases hay with
    | nil => simp [startsWith]
    | cons h hs =>
      simp only [startsWith, Bool.and_eq_true, beq_iff_eq, ih, List.cons_append,
        List.cons.injEq]
      constructor
      · rintro ⟨rfl, b, rfl⟩
        exact ⟨b, rfl, rfl⟩
      · rintro ⟨b, rfl, rfl⟩
        exact ⟨rfl, b, rfl⟩

theorem occursIn_iff (needle hay : List Char) :
    occursIn needle hay = true ↔ ∃ a b, hay = a ++ needle ++ b := by
  induction hay with
  | nil =>
    simp only [occursIn, List.isEmpty_iff]
    constructor
    · rintro rfl
      exact ⟨[], [], rfl⟩
    · rintro ⟨a, b, h⟩
      have h' := congrArg List.length h
      simp at h'
      exact List.eq_nil_of_length_eq_zero (by omega)
  | cons h hs ih =>
    simp only [occursIn, Bool.or_eq_true, startsWith_iff, ih]
    constructor
    · rintro (⟨b, hb⟩ | ⟨a, b, hab⟩)
      · exact ⟨[], b, by simpa using hb⟩
      · exact ⟨h :: a, b, by simp [hab]⟩
    · rintro ⟨a, b, hab⟩
      cases a with
      | nil => exact Or.inl ⟨b, by simpa using hab⟩
      | cons x a =>
        simp at hab
        exact Or.inr ⟨a, b, by simp [hab.2]⟩

/-- C15 fails as stated: the body `{ title: "x" }` lacks `description` (and four more
required fields); the create is refused with a message in which `description` does not
occur. -/
theorem createProduct_message_counterexample :
    getProp [("title", .str "x")] "description" = none ∧
    (createProduct 1700000000000 [("title", .str "x")] Store.empty).1 =
      ⟨400, .error "All fields except thumbnails are required"⟩ ∧
    mentions "All fields except thumbnails are required" "description" = false ∧
    ¬ ∃ a b : List Char, "All fields except thumbnails are required".data =
      a ++ "description".data ++ b := by
  refine ⟨rfl, rfl, by decide, ?_⟩
  rw [← occursIn_iff]
  decide

/-- C15, amended: a refused create always answers with the one fixed message
"All fields except thumbnails are required", whatever fields are missing; the message
contains the name of none of the six required fields, only that of `thumbnails`. -/
theorem createProduct_message (now : Nat) (body : Obj) (s : Store)
    (h : (createProduct now body s).1.status = 400) :
    (createProduct now body s).1 = ⟨400, .error "All fields except thumbnails are required"⟩ ∧
    (∀ k ∈ requiredFields, mentions "All fields except thumbnails are required" k = false) ∧
    mentions "All fields except thumbnails are required" "thumbnails" = true := by
  refine ⟨?_, by decide, by decide⟩
  by_cases hv : ∃ k ∈ requiredFields, truthyOpt (getProp body k) = false
  · rw [createProduct_invalid now body s hv]
  · obtain ⟨rec, _, _, heq, _, _⟩ := createProduct_valid now body s hv
    rw [heq] at h
    simp at h

/-- C15 amended, at a concrete input: the body `{ title: "x" }`. -/
theorem createProduct_message_witness :
    (createProduct 1700000000000 [("title", .str "x")] Store.empty).1 =
      ⟨400, .error "All fields except thumbnails are required"⟩ ∧
    (∀ k ∈ requiredFields, mentions "All fields except thumbnails are required" k = false) ∧
    mentions "All fields except thumbnails are required" "thumbnails" = true :=
  createProduct_message 1700000000000 [("title", .str "x")] Store.empty rfl

/-! ## Negative limits -/

theorem slice_zero_neg {α : Type} (xs : List α) (k : Nat) (h : 1 ≤ k) :
    slice xs 0 (-(k : Int)) = xs.take (xs.length - k) := by
  unfold slice
  have h1 : ¬ ((0 : Int) < 0) := by omega
  have h2 : (-(k : Int)) < 0 := by omega
  simp only [h1, h2, if_false, if_true]
  have h3 : (min (0 : Int) (xs.length : Int)).toNat = 0 := by omega
  have h4 : (max ((xs.length : Int) + -(k : Int)) 0 - min (0 : Int) (xs.length : Int)).toNat
      = xs.length - k := by omega
  rw [h3, h4]
  simp

/-- C17: when the limit parses to a negative integer `-k`, `k ≥ 1`, the handler answers
with `products.slice(0, -k)`, which is the first `length - k` products in their order (none
when `k` exceeds the length), and writes nothing; when the limit parses to 0 or to `NaN`
the answer is the whole collection. -/
theorem listProducts_negative_limit :
    (∀ (limit : Option String) (k : Nat) (s : Store), 1 ≤ k →
      parseLimit limit = some (-(k : Int)) →
      (listProducts limit s).1 = ⟨200, .products (slice s.products 0 (-(k : Int)))⟩ ∧
      slice s.products 0 (-(k : Int)) = s.products.take (s.products.length - k) ∧
      (listProducts limit s).2 = s) ∧
    (∀ (limit : Option String) (s : Store),
      parseLimit limit = some 0 ∨ parseLimit limit = none →
      (listProducts limit s).1 = ⟨200, .products s.products⟩) := by
  constructor
  · intro limit k s hk hl
    refine ⟨?_, slice_zero_neg s.products k hk, listProducts_store limit s⟩
    have hne : (-(k : Int)) ≠ 0 := by omega
    rw [listProducts_of_nonzero limit (-(k : Int)) s hl hne]
  · intro limit s h
    rw [listProducts_of_ignored limit s h.symm]

/-- C17, at concrete inputs: `limit=-2` and `limit=-9` on the five products of
`fiveProducts`. -/
theorem listProducts_negative_limit_witness :
    (parseLimit (some "-2") = some (-2) ∧
      (listProducts (some "-2") fiveProducts).1 =
        ⟨200, .products [[("id", .str "1")], [("id", .str "2")], [("id", .str "3")]]⟩) ∧
    (parseLimit (some "-9") = some (-9) ∧
      (listProducts (some "-9") fiveProducts).1 = ⟨200, .products []⟩) :=
  ⟨⟨by decide, (listProducts_negative_limit.1 (some "-2") 2 fiveProducts (by decide)
      (by decide)).1⟩,
   ⟨by decide, (listProducts_negative_limit.1 (some "-9") 9 fiveProducts (by decide)
      (by decide)).1⟩⟩

/-! ## Records that share an id -/

theorem findIndex_of_first {α : Type} (p : α → Bool) (l : List α) (i : Nat) (x : α)
    (hx : l[i]? = some x) (hp : p x = true)
    (hfirst : ∀ k, k < i → ∀ y, l[k]? = some y → p y = false) :
    findIndex p l = some i ∧ l.find? p = some x := by
  induction l generalizing i with
  | nil => simp at hx
  | cons a t ih =>
    cases i with
    | zero =>
      simp at hx
      subst hx
      simp [findIndex, List.find?, hp]
    | succ i =>
      have ha : p a = false := hfirst 0 (by omega) a (by simp)
      simp at hx
      obtain ⟨h1, h2⟩ := ih i hx (fun k hk y hy => hfirst (k + 1) (by omega) y (by simpa using hy))
      simp [findIndex, List.find?, ha, h1, h2]

theorem twinStore_products :
    twinStore.products =
      [[("id", .str "1700000000000"), ("title", .str "Pencil"),
        ("description", .str "HB pencil"), ("code", .str "PC1"), ("price", half),
        ("status", .bool true), ("stock", twenty), ("category", .str "office"),
        ("thumbnails", .arr [])],
       [("id", .str "1700000000000"), ("title", .str "Pen"),
        ("description", .str "Blue pen"), ("code", .str "PN1"), ("price", oneAndHalf),
        ("status", .bool true), ("stock", hundred), ("category", .str "office"),
        ("thumbnails", .arr [])]] :=
  rfl

theorem twinStore_carts :
    twinStore.carts =
      [{ id := "1700000000000", products := [] }, { id := "1700000000000", products := [] }] :=
  rfl

/-- C18: when the record at position `i` is the first with a given id and another record
at a later position `j` has the same id, then for products `getProduct` answers with the
record at `i`, `updateProduct` merges into the record at `i` and leaves the one at `j` as
it was, while `deleteProduct` leaves no record with that id; for carts `getCart` answers
with the cart at `i`, and `attachProduct` adds the line to the cart at `i` and leaves the
one at `j` as it was. Such states are reachable: two creates at one clock value. -/
theorem duplicate_ids :
    (∀ (pid : String) (s : Store) (i j : Nat) (p q : Obj),
      s.products[i]? = some p → getProp p "id" = some (.str pid) →
      (∀ k, k < i → ∀ r : Obj, s.products[k]? = some r → getProp r "id" ≠ some (.str pid)) →
      i < j → s.products[j]? = some q → getProp q "id" = some (.str pid) →
      (getProduct pid s).1 = ⟨200, .product p⟩ ∧
      (∀ body : Obj,
        (updateProduct pid body s).1 =
          ⟨200, .product (jsonObj (spread p (deleteProp body "id")))⟩ ∧
        (updateProduct pid body s).2.products =
          s.products.set i (jsonObj (spread p (deleteProp body "id"))) ∧
        (updateProduct pid body s).2.products[j]? = some q) ∧
      (deleteProduct pid s).1 = ⟨204, .empty⟩ ∧
      (deleteProduct pid s).2.products = s.products.filter (fun r => !hasId pid r) ∧
      (∀ r ∈ (deleteProduct pid s).2.products, getProp r "id" ≠ some (.str pid))) ∧
    (∀ (cid pid : String) (s : Store) (i j : Nat) (c d : Cart),
      s.carts[i]? = some c → c.id = cid →
      (∀ k, k < i → ∀ r : Cart, s.carts[k]? = some r → r.id ≠ cid) →
      i < j → s.carts[j]? = some d → d.id = cid →
      (getCart cid s).1 = ⟨200, .cart c⟩ ∧
      ((∃ p ∈ s.products, getProp p "id" = some (.str pid)) →
        (attachProduct cid pid s).1 =
          ⟨200, .cart { id := c.id, products := addLine pid c.products }⟩ ∧
        (attachProduct cid pid s).2.carts =
          s.carts.set i { id := c.id, products := addLine pid c.products } ∧
        (attachProduct cid pid s).2.carts[j]? = some d)) ∧
    (Reachable twinStore ∧
      (∃ p q : Obj, twinStore.products = [p, q] ∧
        getProp p "id" = some (.str "1700000000000") ∧
        getProp q "id" = some (.str "1700000000000")) ∧
      (∃ c d : Cart, twinStore.carts = [c, d] ∧ c.id = "1700000000000" ∧
        d.id = "1700000000000")) := by
  refine ⟨?_, ?_, ⟨twinOps, rfl⟩, ⟨_, _, twinStore_products, rfl, rfl⟩,
    ⟨_, _, twinStore_carts, rfl, rfl⟩⟩
  · intro pid s i j p q hp hpid hfirst hij hq hqid
    have hfirst' : ∀ k, k < i → ∀ y, s.products[k]? = some y → hasId pid y = false := by
      intro k hk y hy
      cases hh : hasId pid y with
      | false => rfl
      | true => exact absurd ((hasId_iff pid y).mp hh) (hfirst k hk y hy)
    obtain ⟨hidx, hfind⟩ := findIndex_of_first (hasId pid) s.products i p hp
      ((hasId_iff pid p).mpr hpid) hfirst'
    have hex : ∃ r ∈ s.products, getProp r "id" = some (.str pid) :=
      ⟨p, List.getElem?_mem hp, hpid⟩
    refine ⟨getProduct_of_find pid s p hfind, ?_, by rw [deleteProduct_present pid s hex],
      deleteProduct_products pid s hex, ?_⟩
    · intro body
      refine ⟨by rw [updateProduct_ok pid body s i p hidx hp],
        updateProduct_products pid body s i p hidx hp, ?_⟩
      rw [updateProduct_products pid body s i p hidx hp, List.getElem?_set_ne (by omega)]
      exact hq
    · intro r hr
      rw [deleteProduct_products pid s hex] at hr
      exact not_hasId_of_mem_filter pid _ r hr
  · intro cid pid s i j c d hc hcid hfirst hij hd hdid
    have hfirst' : ∀ k, k < i → ∀ y : Cart, s.carts[k]? = some y →
        (fun c : Cart => c.id == cid) y = false := by
      intro k hk y hy
      simpa using hfirst k hk y hy
    obtain ⟨_, hfind⟩ := findIndex_of_first (fun c : Cart => c.id == cid) s.carts i c hc
      (by simpa using hcid) hfirst'
    refine ⟨getCart_of_find cid s c hfind, ?_⟩
    intro hp
    obtain ⟨prod, hprod⟩ := find?_product_isSome pid s.products hp
    obtain ⟨i', h1, h2, h3⟩ := attachProduct_set cid pid s c prod hfind hprod
    have hii : i' = i := by
      rcases Nat.lt_trichotomy i' i with hlt | heq | hgt
      · exact absurd hcid (hfirst i' hlt c h1)
      · exact heq
      · exact absurd hcid (h2 i hgt c hc)
    subst hii
    refine ⟨by rw [attachProduct_ok cid pid s c prod hfind hprod], h3, ?_⟩
    rw [h3, List.getElem?_set_ne (by omega)]
    exact hd

/-- C18, at a concrete input: in `twinStore` the pencil comes first and the pen second, under
one id; get answers with the pencil, an update leaves the pen as it was, and delete leaves
nothing. -/
theorem duplicate_ids_witness :
    (getProduct "1700000000000" twinStore).1 =
      ⟨200, .product [("id", .str "1700000000000"), ("title", .str "Pencil"),
        ("description", .str "HB pencil"), ("code", .str "PC1"), ("price", half),
        ("status", .bool true), ("stock", twenty), ("category", .str "office"),
        ("thumbnails", .arr [])]⟩ ∧
    (updateProduct "1700000000000" [("price", fifty)] twinStore).2.products[1]? =
      some [("id", .str "1700000000000"), ("title", .str "Pen"),
        ("description", .str "Blue pen"), ("code", .str "PN1"), ("price", oneAndHalf),
        ("status", .bool true), ("stock", hundred), ("category", .str "office"),
        ("thumbnails", .arr [])] ∧
    (deleteProduct "1700000000000" twinStore).2.products = [] :=
  have h := duplicate_ids.1 "1700000000000" twinStore 0 1 _ _ rfl rfl
    (by intro k hk; omega) (by decide) rfl rfl
  ⟨h.1, (h.2.1 [("price", fifty)]).2.2, h.2.2.2.1.trans rfl⟩

end BackEnd1
